import Mathlib

/-!
Verification development for the replenishment core of the claude-comprasV2
repository: the demand forecaster (`app/services/demand_forecaster.py`), the
stock-level calculator (`app/services/stock_calculator.py`) and the allocation
engine (`app/services/distribution_service.py`).

Python floats are modelled as rationals (ℚ), Python ints as ℤ, Python strings
as `String`.  `round(x)` in Python rounds half to even (banker's rounding);
`int(x)` truncates toward zero; `round(x, 2)` rounds half to even at two
decimal places.  These are embedded below as `pyRound`, `pyTrunc`, `round2`.
-/

/-- Python `round(x)`: round half to even (banker's rounding). -/
def pyRound (q : ℚ) : ℤ :=
  if q - ⌊q⌋ < 1/2 then ⌊q⌋
  else if 1/2 < q - ⌊q⌋ then ⌊q⌋ + 1
  else if ⌊q⌋ % 2 = 0 then ⌊q⌋ else ⌊q⌋ + 1

/-- Python `int(x)`: truncation toward zero. -/
def pyTrunc (q : ℚ) : ℤ :=
  if 0 ≤ q then ⌊q⌋ else -⌊-q⌋

/-- Python `round(x, 2)`: round half to even at two decimal places. -/
def round2 (q : ℚ) : ℚ :=
  (pyRound (q * 100) : ℚ) / 100

theorem pyRound_le (q : ℚ) : (pyRound q : ℚ) ≤ q + 1/2 := by
  have h1 : ((⌊q⌋ : ℤ) : ℚ) ≤ q := Int.floor_le q
  have h2 : q < (⌊q⌋ : ℤ) + 1 := Int.lt_floor_add_one q
  unfold pyRound
  split_ifs <;> push_cast <;> linarith

theorem le_pyRound (q : ℚ) : q - 1/2 ≤ (pyRound q : ℚ) := by
  have h1 : ((⌊q⌋ : ℤ) : ℚ) ≤ q := Int.floor_le q
  have h2 : q < (⌊q⌋ : ℤ) + 1 := Int.lt_floor_add_one q
  unfold pyRound
  split_ifs <;> push_cast <;> linarith

theorem floor_le_pyRound (q : ℚ) : ⌊q⌋ ≤ pyRound q := by
  unfold pyRound; split_ifs <;> omega

theorem pyRound_le_floor_add_one (q : ℚ) : pyRound q ≤ ⌊q⌋ + 1 := by
  unfold pyRound; split_ifs <;> omega

theorem pyRound_intCast (n : ℤ) : pyRound (n : ℚ) = n := by
  unfold pyRound
  simp [Int.floor_intCast]

theorem pyRound_mono {x y : ℚ} (h : x ≤ y) : pyRound x ≤ pyRound y := by
  have hf : ⌊x⌋ ≤ ⌊y⌋ := Int.floor_le_floor h
  rcases eq_or_lt_of_le hf with heq | hlt
  · have hx1 : ((⌊x⌋ : ℤ) : ℚ) ≤ x := Int.floor_le x
    have hy2 : y < (⌊y⌋ : ℤ) + 1 := Int.lt_floor_add_one y
    have hrr : x - (⌊x⌋ : ℚ) ≤ y - (⌊y⌋ : ℚ) := by
      rw [← heq]; push_cast; linarith
    unfold pyRound
    rw [← heq] at *
    split_ifs <;> push_cast at * <;> first | omega | linarith
  · calc pyRound x ≤ ⌊x⌋ + 1 := pyRound_le_floor_add_one x
      _ ≤ ⌊y⌋ := hlt
      _ ≤ pyRound y := floor_le_pyRound y

theorem pyRound_pos_of_one_le {q : ℚ} (h : 1 ≤ pyRound q) : 1/2 ≤ q := by
  have := pyRound_le q
  have : (1 : ℚ) ≤ q + 1/2 := by
    calc (1 : ℚ) ≤ (pyRound q : ℚ) := by exact_mod_cast h
      _ ≤ q + 1/2 := pyRound_le q
  linarith

theorem pyTrunc_le_of_nonneg {q : ℚ} (h : 0 ≤ q) : (pyTrunc q : ℚ) ≤ q := by
  unfold pyTrunc
  rw [if_pos h]
  exact Int.floor_le q

theorem pyTrunc_nonneg {q : ℚ} (h : 0 ≤ q) : 0 ≤ pyTrunc q := by
  unfold pyTrunc
  rw [if_pos h]
  exact Int.floor_nonneg.mpr h

theorem round2_mono {x y : ℚ} (h : x ≤ y) : round2 x ≤ round2 y := by
  unfold round2
  have : pyRound (x * 100) ≤ pyRound (y * 100) := pyRound_mono (by linarith)
  have : ((pyRound (x * 100) : ℤ) : ℚ) ≤ ((pyRound (y * 100) : ℤ) : ℚ) := by
    exact_mod_cast this
  linarith

theorem round2_zero : round2 0 = 0 := by
  have h : pyRound ((0 : ℚ) * 100) = 0 := by
    have := pyRound_intCast 0
    simpa using this
  unfold round2
  rw [h]
  norm_num

theorem pos_of_round2_pos {q : ℚ} (h : 0 < round2 q) : 0 < q := by
  by_contra hq
  push_neg at hq
  have : round2 q ≤ round2 0 := round2_mono hq
  rw [round2_zero] at this
  linarith

/-!
## Data model (`app/services/stock_calculator.py`, `app/services/distribution_service.py`)

`StockLevel`, `TransferProposal` and `PurchaseNeed` mirror the Python
dataclasses field by field.  Field defaults are only a convenience for writing
concrete test inputs; no function below depends on them.
-/

/-- Dataclass `StockLevel` of `stock_calculator.py`. -/
structure StockLevel where
  product_id : ℤ := 0
  deposit_id : ℤ := 0
  cod_item : String := ""
  producto_nombre : String := ""
  marca : String := ""
  rubro : String := ""
  subrubro : String := ""
  deposito_nombre : String := ""
  stock_actual : ℚ := 0
  stock_real : ℚ := 0
  stock_reservado : ℚ := 0
  stock_minimo : ℚ := 0
  stock_ideal : ℚ := 0
  stock_maximo : ℚ := 0
  demanda_diaria : ℚ := 0
  dias_cobertura : ℤ := 0
  metodo_forecast : String := ""
  tendencia : String := ""
  ventas_30_dias : ℚ := 0
  ventas_60_dias : ℚ := 0
  ventas_90_dias : ℚ := 0
  ventas_365_dias : ℚ := 0
  monto_90_dias : ℚ := 0
  estado : String := ""

/-- Dataclass `TransferProposal` of `distribution_service.py`. -/
structure TransferProposal where
  product_id : ℤ := 0
  cod_item : String := ""
  producto_nombre : String := ""
  marca : String := ""
  rubro : String := ""
  deposit_origen_id : ℤ := 0
  deposit_origen_nombre : String := ""
  deposit_destino_id : ℤ := 0
  deposit_destino_nombre : String := ""
  cantidad_transferir : ℤ := 0
  stock_origen_antes : ℚ := 0
  stock_origen_despues : ℚ := 0
  stock_destino_antes : ℚ := 0
  stock_destino_despues : ℚ := 0
  stock_minimo_destino : ℚ := 0
  stock_ideal_destino : ℚ := 0
  stock_objetivo_destino : ℚ := 0

/-- Dataclass `PurchaseNeed` of `distribution_service.py`. -/
structure PurchaseNeed where
  product_id : ℤ := 0
  cod_item : String := ""
  producto_nombre : String := ""
  marca : String := ""
  rubro : String := ""
  subrubro : String := ""
  deposit_destino_id : ℤ := 0
  deposit_destino_nombre : String := ""
  cantidad_necesaria : ℤ := 0
  stock_actual_destino : ℚ := 0
  stock_objetivo_destino : ℚ := 0
  stock_central_actual : ℚ := 0
  stock_central_minimo : ℚ := 0
  costo_unitario : ℚ := 0
  costo_total : ℚ := 0
  origen_necesidad : String := ""

/-- `DistributionService.CENTRAL_DEPOSIT_NAME`. -/
def CENTRAL_DEPOSIT_NAME : String := "DEPOSITO RUTA 9"

/-!
## Grouping (`DistributionService._group_by_product`)

The Python code groups the stock levels into a dict of dicts
`{product_id: {deposito_nombre: StockLevel}}`.  Python dicts preserve
insertion order and overwrite the value (keeping the key position) on
re-insertion; `upsert`/`groupAdd` reproduce exactly that.
-/

/-- One dict insertion `grouped[pid][sl.deposito_nombre] = sl`. -/
def upsert (items : List (String × StockLevel)) (sl : StockLevel) :
    List (String × StockLevel) :=
  match items with
  | [] => [(sl.deposito_nombre, sl)]
  | (k, v) :: rest =>
    if k = sl.deposito_nombre then (k, sl) :: rest
    else (k, v) :: upsert rest sl

/-- One outer-dict insertion for `_group_by_product`. -/
def groupAdd (g : List (ℤ × List (String × StockLevel))) (sl : StockLevel) :
    List (ℤ × List (String × StockLevel)) :=
  match g with
  | [] => [(sl.product_id, upsert [] sl)]
  | (p, items) :: rest =>
    if p = sl.product_id then (p, upsert items sl) :: rest
    else (p, items) :: groupAdd rest sl

/-- `DistributionService._group_by_product`. -/
def groupByProduct (levels : List StockLevel) : List (ℤ × List (String × StockLevel)) :=
  levels.foldl groupAdd []

/-- The loop `for deposit_name, stock_level in deposits_data.items(): if
deposit_name == self.CENTRAL_DEPOSIT_NAME: central_data = stock_level`. -/
def findCentral (items : List (String × StockLevel)) : Option StockLevel :=
  items.foldl (fun acc kv => if kv.1 = CENTRAL_DEPOSIT_NAME then some kv.2 else acc) none

/-- The non-central entries (`sucursales_data`), in dict order. -/
def sucursalesOf (items : List (String × StockLevel)) : List StockLevel :=
  (items.filter (fun kv => kv.1 ≠ CENTRAL_DEPOSIT_NAME)).map (·.2)

/-- Target selection: `'minimo'` / `'maximo'` / anything else means ideal,
exactly as the if/elif/else chain in the source. -/
def targetOf (target_level : String) (sl : StockLevel) : ℚ :=
  if target_level = "minimo" then sl.stock_minimo
  else if target_level = "maximo" then sl.stock_maximo
  else sl.stock_ideal

/-!
## Central distribution (`DistributionService.generate_distribution`)

The body of `for sucursal in sucursales_data` (lines 186-302): one step of
the loop.  State is `(disponible_central, transfers emitted, needs emitted)`.
-/

/-- `round(stock_objetivo - sucursal.stock_actual)` — the quantity `faltante_int`
of the source. -/
def faltanteInt (target_level : String) (suc : StockLevel) : ℤ :=
  pyRound (targetOf target_level suc - suc.stock_actual)

/-- Builder for the `TransferProposal(...)` constructor calls of
`generate_distribution` (full and partial coverage differ only in the
quantity and in `stock_origen_despues`). -/
def mkTransfer (product_id : ℤ) (central suc : StockLevel) (cantidad : ℤ)
    (origen_despues : ℚ) (stock_objetivo : ℚ) : TransferProposal :=
  { product_id := product_id
    cod_item := central.cod_item
    producto_nombre := central.producto_nombre
    marca := central.marca
    rubro := central.rubro
    deposit_origen_id := central.deposit_id
    deposit_origen_nombre := central.deposito_nombre
    deposit_destino_id := suc.deposit_id
    deposit_destino_nombre := suc.deposito_nombre
    cantidad_transferir := cantidad
    stock_origen_antes := central.stock_actual
    stock_origen_despues := origen_despues
    stock_destino_antes := suc.stock_actual
    stock_destino_despues := suc.stock_actual + cantidad
    stock_minimo_destino := suc.stock_minimo
    stock_ideal_destino := suc.stock_ideal
    stock_objetivo_destino := stock_objetivo }

/-- Builder for the `PurchaseNeed(...)` constructor calls of
`generate_distribution` (the central's own need passes the central itself as
destination). -/
def mkNeed (product_id : ℤ) (central dest : StockLevel) (cantidad : ℤ)
    (stock_actual_destino : ℚ) (stock_objetivo : ℚ) (costo : ℚ)
    (causa : String) : PurchaseNeed :=
  { product_id := product_id
    cod_item := dest.cod_item
    producto_nombre := dest.producto_nombre
    marca := dest.marca
    rubro := dest.rubro
    subrubro := dest.subrubro
    deposit_destino_id := dest.deposit_id
    deposit_destino_nombre := dest.deposito_nombre
    cantidad_necesaria := cantidad
    stock_actual_destino := stock_actual_destino
    stock_objetivo_destino := stock_objetivo
    stock_central_actual := central.stock_actual
    stock_central_minimo := central.stock_minimo
    costo_unitario := costo
    costo_total := costo * cantidad
    origen_necesidad := causa }

/-- One iteration of the per-sucursal loop of `generate_distribution`
(lines 186-302).  Returns the new `disponible_central` together with the
transfer and purchase-need emitted by this iteration, if any. -/
def stepSucursal (product_id : ℤ) (central : StockLevel) (costo : ℚ)
    (target_level : String) (disponible_central : ℚ) (suc : StockLevel) :
    ℚ × List TransferProposal × List PurchaseNeed :=
  if targetOf target_level suc - suc.stock_actual ≤ 0 then
    (disponible_central, [], [])
  else if faltanteInt target_level suc ≤ 0 then
    (disponible_central, [], [])
  else if (faltanteInt target_level suc : ℚ) ≤ disponible_central then
    -- el central puede cubrir completamente
    (disponible_central - faltanteInt target_level suc,
     [mkTransfer product_id central suc (faltanteInt target_level suc)
        (central.stock_actual - faltanteInt target_level suc) (targetOf target_level suc)],
     [])
  else if 0 < disponible_central then
    -- cobertura parcial: transfiere int(disponible_central), compra el resto
    (0,
     [mkTransfer product_id central suc (pyTrunc disponible_central)
        central.stock_minimo (targetOf target_level suc)],
     [mkNeed product_id central suc (faltanteInt target_level suc - pyTrunc disponible_central)
        (suc.stock_actual + pyTrunc disponible_central) (targetOf target_level suc) costo
        "Sucursal sin cobertura"])
  else
    -- el central no tiene disponible
    (disponible_central,
     [],
     [mkNeed product_id central suc (faltanteInt target_level suc)
        suc.stock_actual (targetOf target_level suc) costo "Central sin stock"])

/-- The per-sucursal loop of `generate_distribution`, in list order. -/
def distLoop (product_id : ℤ) (central : StockLevel) (costo : ℚ)
    (target_level : String) (disponible_central : ℚ) :
    List StockLevel → ℚ × List TransferProposal × List PurchaseNeed
  | [] => (disponible_central, [], [])
  | suc :: rest =>
    let s := stepSucursal product_id central costo target_level disponible_central suc
    let r := distLoop product_id central costo target_level s.1 rest
    (r.1, s.2.1 ++ r.2.1, s.2.2 ++ r.2.2)

/-- The body of `for product_id, deposits_data in products_by_id.items()`
(lines 167-336): products without a central row are skipped, then the
sucursal loop runs starting from `max(0, central.stock_actual -
central.stock_minimo)`, then the central-below-minimum check appends one
more purchase need. -/
def processGroup (product_id : ℤ) (items : List (String × StockLevel)) (costo : ℚ)
    (target_level : String) : List TransferProposal × List PurchaseNeed :=
  match findCentral items with
  | none => ([], [])
  | some central =>
    let r := distLoop product_id central costo target_level
      (max 0 (central.stock_actual - central.stock_minimo)) (sucursalesOf items)
    if central.stock_actual < central.stock_minimo then
      if 0 < pyRound (targetOf target_level central - central.stock_actual) then
        (r.2.1, r.2.2 ++
          [mkNeed product_id central central
            (pyRound (targetOf target_level central - central.stock_actual))
            central.stock_actual (targetOf target_level central) costo
            "Central bajo mínimo"])
      else (r.2.1, r.2.2)
    else (r.2.1, r.2.2)

/-- The outer product loop: results are appended product by product. -/
def distAll (groups : List (ℤ × List (String × StockLevel))) (product_costs : ℤ → ℚ)
    (target_level : String) : List TransferProposal × List PurchaseNeed :=
  match groups with
  | [] => ([], [])
  | (p, items) :: rest =>
    let r := processGroup p items (product_costs p) target_level
    let r2 := distAll rest product_costs target_level
    (r.1 ++ r2.1, r.2 ++ r2.2)

/-- The exclusion filter at the top of `generate_distribution`. -/
def filterLevels (levels : List StockLevel)
    (excluded_deposits excluded_brands : List String) : List StockLevel :=
  levels.filter (fun sl =>
    sl.deposito_nombre ∉ excluded_deposits ∧ sl.marca ∉ excluded_brands)

/-- `DistributionService.generate_distribution` (without the summary dict,
which carries no allocation content).  `product_costs` stands for the
`_get_product_costs()` lookup with default 0. -/
def generate_distribution (stock_levels : List StockLevel) (target_level : String)
    (excluded_deposits excluded_brands : List String) (product_costs : ℤ → ℚ) :
    List TransferProposal × List PurchaseNeed :=
  distAll (groupByProduct (filterLevels stock_levels excluded_deposits excluded_brands))
    product_costs target_level

/-!
## Accounting helpers for the allocation claims
-/

/-- Total transferred quantity of a list of proposals. -/
def sumT (ts : List TransferProposal) : ℤ := (ts.map (·.cantidad_transferir)).sum

/-- Total purchase quantity of a list of needs. -/
def sumN (ns : List PurchaseNeed) : ℤ := (ns.map (·.cantidad_necesaria)).sum

/-- The two causes a purchase need of a sucursal can carry. -/
def isPeerCause (n : PurchaseNeed) : Bool :=
  n.origen_necesidad = "Sucursal sin cobertura" ∨ n.origen_necesidad = "Central sin stock"

/-- The positive rounded deficit of one sucursal: `round(target - actual)`
when that rounds to at least one unit, else 0. -/
def posDef (target_level : String) (sl : StockLevel) : ℤ :=
  if 1 ≤ faltanteInt target_level sl then faltanteInt target_level sl else 0

theorem sumT_append (a b : List TransferProposal) : sumT (a ++ b) = sumT a + sumT b := by
  simp [sumT]

theorem sumN_append (a b : List PurchaseNeed) : sumN (a ++ b) = sumN a + sumN b := by
  simp [sumN]

theorem posDef_of_nonpos {target_level : String} {sl : StockLevel}
    (h : faltanteInt target_level sl ≤ 0) : posDef target_level sl = 0 := by
  unfold posDef
  rw [if_neg (by omega)]

theorem posDef_of_pos {target_level : String} {sl : StockLevel}
    (h : 1 ≤ faltanteInt target_level sl) : posDef target_level sl = faltanteInt target_level sl := by
  unfold posDef
  rw [if_pos h]

/-- Complete case analysis of one iteration of the sucursal loop. -/
theorem stepSucursal_cases (pid : ℤ) (central : StockLevel) (costo : ℚ)
    (tl : String) (pool : ℚ) (suc : StockLevel) :
    (faltanteInt tl suc ≤ 0 ∧
       stepSucursal pid central costo tl pool suc = (pool, [], [])) ∨
    (1 ≤ faltanteInt tl suc ∧
      (((faltanteInt tl suc : ℚ) ≤ pool ∧
         stepSucursal pid central costo tl pool suc =
           (pool - faltanteInt tl suc,
            [mkTransfer pid central suc (faltanteInt tl suc)
               (central.stock_actual - faltanteInt tl suc) (targetOf tl suc)],
            [])) ∨
       (¬ (faltanteInt tl suc : ℚ) ≤ pool ∧ 0 < pool ∧
         stepSucursal pid central costo tl pool suc =
           (0,
            [mkTransfer pid central suc (pyTrunc pool) central.stock_minimo (targetOf tl suc)],
            [mkNeed pid central suc (faltanteInt tl suc - pyTrunc pool)
               (suc.stock_actual + pyTrunc pool) (targetOf tl suc) costo
               "Sucursal sin cobertura"])) ∨
       (¬ (faltanteInt tl suc : ℚ) ≤ pool ∧ ¬ 0 < pool ∧
         stepSucursal pid central costo tl pool suc =
           (pool, [],
            [mkNeed pid central suc (faltanteInt tl suc) suc.stock_actual
               (targetOf tl suc) costo "Central sin stock"])))) := by
  by_cases h1 : targetOf tl suc - suc.stock_actual ≤ 0
  · left
    constructor
    · have := pyRound_mono h1
      rw [show ((0 : ℚ) = ((0 : ℤ) : ℚ)) by norm_num, pyRound_intCast] at this
      exact this
    · simp only [stepSucursal, if_pos h1]
  · by_cases h2 : faltanteInt tl suc ≤ 0
    · left
      exact ⟨h2, by simp only [stepSucursal, if_neg h1, if_pos h2]⟩
    · right
      refine ⟨by omega, ?_⟩
      by_cases h3 : (faltanteInt tl suc : ℚ) ≤ pool
      · left
        exact ⟨h3, by simp only [stepSucursal, if_neg h1, if_neg h2, if_pos h3]⟩
      · by_cases h4 : 0 < pool
        · right; left
          exact ⟨h3, h4, by simp only [stepSucursal, if_neg h1, if_neg h2, if_neg h3, if_pos h4]⟩
        · right; right
          exact ⟨h3, h4, by simp only [stepSucursal, if_neg h1, if_neg h2, if_neg h3, if_neg h4]⟩

theorem stepSucursal_pool_nonneg (pid : ℤ) (central : StockLevel) (costo : ℚ)
    (tl : String) (pool : ℚ) (suc : StockLevel) (h : 0 ≤ pool) :
    0 ≤ (stepSucursal pid central costo tl pool suc).1 := by
  rcases stepSucursal_cases pid central costo tl pool suc with
    ⟨_, he⟩ | ⟨hf, ⟨h3, he⟩ | ⟨h3, h4, he⟩ | ⟨h3, h4, he⟩⟩ <;> rw [he] <;> dsimp <;> linarith

theorem stepSucursal_qty_bound (pid : ℤ) (central : StockLevel) (costo : ℚ)
    (tl : String) (pool : ℚ) (suc : StockLevel) (h : 0 ≤ pool) :
    (stepSucursal pid central costo tl pool suc).1
      + sumT (stepSucursal pid central costo tl pool suc).2.1 ≤ pool := by
  rcases stepSucursal_cases pid central costo tl pool suc with
    ⟨_, he⟩ | ⟨hf, ⟨h3, he⟩ | ⟨h3, h4, he⟩ | ⟨h3, h4, he⟩⟩ <;> rw [he] <;>
    simp [sumT, mkTransfer] <;> push_cast <;> try linarith
  · have := pyTrunc_le_of_nonneg h
    linarith

theorem stepSucursal_pool_zero (pid : ℤ) (central : StockLevel) (costo : ℚ)
    (tl : String) (suc : StockLevel) :
    (stepSucursal pid central costo tl 0 suc).1 = 0 ∧
      (stepSucursal pid central costo tl 0 suc).2.1 = [] := by
  rcases stepSucursal_cases pid central costo tl 0 suc with
    ⟨_, he⟩ | ⟨hf, ⟨h3, he⟩ | ⟨h3, h4, he⟩ | ⟨h3, h4, he⟩⟩ <;> rw [he]
  · exact ⟨rfl, rfl⟩
  · exfalso
    have : (1 : ℚ) ≤ (faltanteInt tl suc : ℚ) := by exact_mod_cast hf
    linarith
  · exact absurd h4 (lt_irrefl 0)
  · exact ⟨rfl, rfl⟩

theorem stepSucursal_qty_nonneg (pid : ℤ) (central : StockLevel) (costo : ℚ)
    (tl : String) (pool : ℚ) (suc : StockLevel) (h : 0 ≤ pool) :
    ∀ t ∈ (stepSucursal pid central costo tl pool suc).2.1, 0 ≤ t.cantidad_transferir := by
  rcases stepSucursal_cases pid central costo tl pool suc with
    ⟨_, he⟩ | ⟨hf, ⟨h3, he⟩ | ⟨h3, h4, he⟩ | ⟨h3, h4, he⟩⟩ <;> rw [he] <;>
    intro t ht <;> simp_all [mkTransfer]
  · omega
  · exact pyTrunc_nonneg h

theorem stepSucursal_stamp (pid : ℤ) (central : StockLevel) (costo : ℚ)
    (tl : String) (pool : ℚ) (suc : StockLevel) :
    (∀ t ∈ (stepSucursal pid central costo tl pool suc).2.1,
        t.product_id = pid ∧ t.deposit_destino_nombre = suc.deposito_nombre ∧
          t.deposit_origen_nombre = central.deposito_nombre) ∧
      (∀ n ∈ (stepSucursal pid central costo tl pool suc).2.2,
        n.product_id = pid ∧ n.deposit_destino_nombre = suc.deposito_nombre ∧
          isPeerCause n = true) := by
  rcases stepSucursal_cases pid central costo tl pool suc with
    ⟨_, he⟩ | ⟨hf, ⟨h3, he⟩ | ⟨h3, h4, he⟩ | ⟨h3, h4, he⟩⟩ <;> rw [he] <;>
    constructor <;> intro x hx <;> simp_all [mkTransfer, mkNeed, isPeerCause]

/-- Conservation at a single step, filtered by an arbitrary predicate on the
destination deposit: quantity transferred plus quantity routed to purchase
equals the positive rounded deficit. -/
theorem stepSucursal_conservation (P : String → Bool) (pid : ℤ) (central : StockLevel)
    (costo : ℚ) (tl : String) (pool : ℚ) (suc : StockLevel) :
    sumT ((stepSucursal pid central costo tl pool suc).2.1.filter
        (fun t => P t.deposit_destino_nombre))
      + sumN (((stepSucursal pid central costo tl pool suc).2.2.filter isPeerCause).filter
        (fun n => P n.deposit_destino_nombre))
    = if P suc.deposito_nombre then posDef tl suc else 0 := by
  rcases stepSucursal_cases pid central costo tl pool suc with
    ⟨hf, he⟩ | ⟨hf, ⟨h3, he⟩ | ⟨h3, h4, he⟩ | ⟨h3, h4, he⟩⟩ <;> rw [he]
  · rw [posDef_of_nonpos hf]
    simp [sumT, sumN]
  · rw [posDef_of_pos hf]
    by_cases hP : P suc.deposito_nombre <;> simp [sumT, sumN, mkTransfer, hP]
  · rw [posDef_of_pos hf]
    by_cases hP : P suc.deposito_nombre <;>
      simp [sumT, sumN, mkTransfer, mkNeed, isPeerCause, hP]
  · rw [posDef_of_pos hf]
    by_cases hP : P suc.deposito_nombre <;>
      simp [sumT, sumN, mkNeed, isPeerCause, hP]

/-!
## Loop-level invariants of the sucursal loop
-/

theorem distLoop_pool (pid : ℤ) (central : StockLevel) (costo : ℚ) (tl : String) :
    ∀ (sucs : List StockLevel) (pool : ℚ), 0 ≤ pool →
      0 ≤ (distLoop pid central costo tl pool sucs).1 ∧
        (distLoop pid central costo tl pool sucs).1
          + sumT (distLoop pid central costo tl pool sucs).2.1 ≤ pool
  | [], pool, h => by
    simp [distLoop, sumT]
    exact h
  | suc :: rest, pool, h => by
    have h1 := stepSucursal_pool_nonneg pid central costo tl pool suc h
    have h2 := stepSucursal_qty_bound pid central costo tl pool suc h
    have ih := distLoop_pool pid central costo tl rest
      (stepSucursal pid central costo tl pool suc).1 h1
    simp only [distLoop, sumT_append]
    refine ⟨ih.1, ?_⟩
    push_cast
    push_cast at h2 ih
    linarith [ih.2]

theorem distLoop_qty_nonneg (pid : ℤ) (central : StockLevel) (costo : ℚ) (tl : String) :
    ∀ (sucs : List StockLevel) (pool : ℚ), 0 ≤ pool →
      ∀ t ∈ (distLoop pid central costo tl pool sucs).2.1, 0 ≤ t.cantidad_transferir
  | [], pool, h => by
    simp [distLoop]
  | suc :: rest, pool, h => by
    have h1 := stepSucursal_pool_nonneg pid central costo tl pool suc h
    have hs := stepSucursal_qty_nonneg pid central costo tl pool suc h
    have ih := distLoop_qty_nonneg pid central costo tl rest
      (stepSucursal pid central costo tl pool suc).1 h1
    simp only [distLoop, List.mem_append]
    rintro t (ht | ht)
    · exact hs t ht
    · exact ih t ht

theorem distLoop_zero (pid : ℤ) (central : StockLevel) (costo : ℚ) (tl : String) :
    ∀ (sucs : List StockLevel), (distLoop pid central costo tl 0 sucs).2.1 = []
  | [] => by simp [distLoop]
  | suc :: rest => by
    have hz := stepSucursal_pool_zero pid central costo tl suc
    have ih := distLoop_zero pid central costo tl rest
    simp only [distLoop, hz.1, hz.2, ih, List.nil_append, List.append_nil]

theorem distLoop_stamp (pid : ℤ) (central : StockLevel) (costo : ℚ) (tl : String) :
    ∀ (sucs : List StockLevel) (pool : ℚ),
      (∀ t ∈ (distLoop pid central costo tl pool sucs).2.1,
          t.product_id = pid ∧ t.deposit_origen_nombre = central.deposito_nombre ∧
            ∃ suc ∈ sucs, t.deposit_destino_nombre = suc.deposito_nombre) ∧
        (∀ n ∈ (distLoop pid central costo tl pool sucs).2.2,
          n.product_id = pid ∧ isPeerCause n = true ∧
            ∃ suc ∈ sucs, n.deposit_destino_nombre = suc.deposito_nombre)
  | [], pool => by
    simp [distLoop]
  | suc :: rest, pool => by
    have hs := stepSucursal_stamp pid central costo tl pool suc
    have ih := distLoop_stamp pid central costo tl rest
      (stepSucursal pid central costo tl pool suc).1
    constructor
    · simp only [distLoop, List.mem_append]
      rintro t (ht | ht)
      · obtain ⟨ha, hb, hc⟩ := hs.1 t ht
        exact ⟨ha, hc, suc, by simp, hb⟩
      · obtain ⟨ha, hb, x, hx, hc⟩ := ih.1 t ht
        exact ⟨ha, hb, x, by simp [hx], hc⟩
    · simp only [distLoop, List.mem_append]
      rintro n (hn | hn)
      · obtain ⟨ha, hb, hc⟩ := hs.2 n hn
        exact ⟨ha, hc, suc, by simp, hb⟩
      · obtain ⟨ha, hb, x, hx, hc⟩ := ih.2 n hn
        exact ⟨ha, hb, x, by simp [hx], hc⟩

theorem distLoop_conservation (P : String → Bool) (pid : ℤ) (central : StockLevel)
    (costo : ℚ) (tl : String) :
    ∀ (sucs : List StockLevel) (pool : ℚ),
      sumT ((distLoop pid central costo tl pool sucs).2.1.filter
          (fun t => P t.deposit_destino_nombre))
        + sumN (((distLoop pid central costo tl pool sucs).2.2.filter isPeerCause).filter
          (fun n => P n.deposit_destino_nombre))
      = ((sucs.filter (fun x => P x.deposito_nombre)).map (posDef tl)).sum
  | [], pool => by
    simp [distLoop, sumT, sumN]
  | suc :: rest, pool => by
    have hs := stepSucursal_conservation P pid central costo tl pool suc
    have ih := distLoop_conservation P pid central costo tl rest
      (stepSucursal pid central costo tl pool suc).1
    simp only [distLoop, List.filter_append, sumT_append, sumN_append]
    by_cases hP : P suc.deposito_nombre
    · rw [if_pos hP] at hs
      simp only [List.filter_cons, hP, if_pos, List.map_cons, List.sum_cons]
      omega
    · rw [if_neg hP] at hs
      simp only [List.filter_cons, hP]
      simp only [Bool.false_eq_true, if_false, ite_false]
      omega

/-!
## Structural facts about the dict-of-dicts grouping
-/

/-- Invariant of an inner dict of `_group_by_product`: keys are distinct,
each key is the row's deposit name, and each row belongs to the product. -/
def itemsInv (p : ℤ) (items : List (String × StockLevel)) : Prop :=
  (items.map (·.1)).Nodup ∧
    ∀ kv ∈ items, kv.1 = kv.2.deposito_nombre ∧ kv.2.product_id = p

/-- Invariant of the outer dict: keys are distinct and every inner dict is
well formed. -/
def groupsInv (g : List (ℤ × List (String × StockLevel))) : Prop :=
  (g.map (·.1)).Nodup ∧ ∀ e ∈ g, itemsInv e.1 e.2

theorem upsert_nil (sl : StockLevel) : upsert [] sl = [(sl.deposito_nombre, sl)] := rfl

theorem upsert_cons_eq {k : String} {v : StockLevel} (rest : List (String × StockLevel))
    (sl : StockLevel) (h : k = sl.deposito_nombre) :
    upsert ((k, v) :: rest) sl = (k, sl) :: rest := by
  simp [upsert, h]

theorem upsert_cons_ne {k : String} {v : StockLevel} (rest : List (String × StockLevel))
    (sl : StockLevel) (h : ¬ k = sl.deposito_nombre) :
    upsert ((k, v) :: rest) sl = (k, v) :: upsert rest sl := by
  simp [upsert, h]

theorem groupAdd_nil (sl : StockLevel) :
    groupAdd [] sl = [(sl.product_id, upsert [] sl)] := rfl

theorem groupAdd_cons_eq {p : ℤ} {items : List (String × StockLevel)}
    (rest : List (ℤ × List (String × StockLevel))) (sl : StockLevel)
    (h : p = sl.product_id) :
    groupAdd ((p, items) :: rest) sl = (p, upsert items sl) :: rest := by
  simp [groupAdd, h]

theorem groupAdd_cons_ne {p : ℤ} {items : List (String × StockLevel)}
    (rest : List (ℤ × List (String × StockLevel))) (sl : StockLevel)
    (h : ¬ p = sl.product_id) :
    groupAdd ((p, items) :: rest) sl = (p, items) :: groupAdd rest sl := by
  simp [groupAdd, h]

theorem upsert_keys (items : List (String × StockLevel)) (sl : StockLevel) :
    (upsert items sl).map (·.1) =
      if sl.deposito_nombre ∈ items.map (·.1) then items.map (·.1)
      else items.map (·.1) ++ [sl.deposito_nombre] := by
  induction items with
  | nil => simp [upsert_nil]
  | cons kv rest ih =>
    obtain ⟨k, v⟩ := kv
    by_cases hk : k = sl.deposito_nombre
    · subst hk
      rw [upsert_cons_eq rest sl rfl]
      simp
    · rw [upsert_cons_ne rest sl hk]
      have hk2 : sl.deposito_nombre ≠ k := Ne.symm hk
      by_cases hm : sl.deposito_nombre ∈ rest.map (·.1) <;>
        simp [ih, hm, hk2]

theorem upsert_mem (items : List (String × StockLevel)) (sl : StockLevel) :
    ∀ kv ∈ upsert items sl, kv = (sl.deposito_nombre, sl) ∨ kv ∈ items := by
  induction items with
  | nil => simp [upsert_nil]
  | cons kv0 rest ih =>
    obtain ⟨k, v⟩ := kv0
    by_cases hk : k = sl.deposito_nombre
    · subst hk
      rw [upsert_cons_eq rest sl rfl]
      intro kv hkv
      rcases List.mem_cons.mp hkv with h | h
      · exact Or.inl h
      · exact Or.inr (List.mem_cons_of_mem _ h)
    · rw [upsert_cons_ne rest sl hk]
      intro kv hkv
      rcases List.mem_cons.mp hkv with h | h
      · exact Or.inr (h ▸ List.mem_cons_self _ _)
      · rcases ih kv h with h2 | h2
        · exact Or.inl h2
        · exact Or.inr (List.mem_cons_of_mem _ h2)

theorem itemsInv_upsert {p : ℤ} {items : List (String × StockLevel)} {sl : StockLevel}
    (hinv : itemsInv p items) (hp : sl.product_id = p) :
    itemsInv p (upsert items sl) := by
  constructor
  · rw [upsert_keys]
    split_ifs with hm
    · exact hinv.1
    · simp only [List.nodup_append, List.nodup_cons, List.nodup_nil]
      exact ⟨hinv.1, by simp, by simpa using fun h => hm h⟩
  · intro kv hkv
    rcases upsert_mem items sl kv hkv with h | h
    · subst h
      exact ⟨rfl, hp⟩
    · exact hinv.2 kv h

theorem groupAdd_keys (g : List (ℤ × List (String × StockLevel))) (sl : StockLevel) :
    (groupAdd g sl).map (·.1) =
      if sl.product_id ∈ g.map (·.1) then g.map (·.1)
      else g.map (·.1) ++ [sl.product_id] := by
  induction g with
  | nil => simp [groupAdd_nil]
  | cons e rest ih =>
    obtain ⟨p, items⟩ := e
    by_cases hp : p = sl.product_id
    · subst hp
      rw [groupAdd_cons_eq rest sl rfl]
      simp
    · rw [groupAdd_cons_ne rest sl hp]
      have hp2 : sl.product_id ≠ p := Ne.symm hp
      by_cases hm : sl.product_id ∈ rest.map (·.1) <;>
        simp [ih, hm, hp2]

theorem groupsInv_groupAdd {g : List (ℤ × List (String × StockLevel))} {sl : StockLevel}
    (hinv : groupsInv g) : groupsInv (groupAdd g sl) := by
  induction g with
  | nil =>
    rw [groupAdd_nil]
    refine ⟨by simp, ?_⟩
    intro e he
    rcases List.mem_singleton.mp he with rfl
    exact itemsInv_upsert (p := sl.product_id) ⟨List.nodup_nil, by simp⟩ rfl
  | cons e0 rest ih =>
    obtain ⟨p, items⟩ := e0
    obtain ⟨hnd, hall⟩ := hinv
    simp only [List.map_cons, List.nodup_cons] at hnd
    by_cases hp : p = sl.product_id
    · subst hp
      rw [groupAdd_cons_eq rest sl rfl]
      constructor
      · simp only [List.map_cons, List.nodup_cons]
        exact hnd
      · intro e he
        rcases List.mem_cons.mp he with rfl | he2
        · exact itemsInv_upsert (hall (sl.product_id, items) (List.mem_cons_self _ _)) rfl
        · exact hall e (List.mem_cons_of_mem _ he2)
    · have hrest : groupsInv rest := ⟨hnd.2, fun e he => hall e (List.mem_cons_of_mem _ he)⟩
      have ihr := ih hrest
      rw [groupAdd_cons_ne rest sl hp]
      constructor
      · simp only [List.map_cons, List.nodup_cons]
        refine ⟨?_, ihr.1⟩
        rw [groupAdd_keys]
        split_ifs with hm
        · exact hnd.1
        · simp only [List.mem_append, List.mem_singleton]
          rintro (h | h)
          · exact hnd.1 h
          · exact hp h
      · intro e he
        rcases List.mem_cons.mp he with rfl | he2
        · exact hall (p, items) (List.mem_cons_self _ _)
        · exact ihr.2 e he2

theorem groupsInv_foldl (levels : List StockLevel) :
    ∀ (g : List (ℤ × List (String × StockLevel))), groupsInv g →
      groupsInv (levels.foldl groupAdd g) := by
  induction levels with
  | nil => intro g hg; exact hg
  | cons sl rest ih =>
    intro g hg
    exact ih (groupAdd g sl) (groupsInv_groupAdd hg)

theorem groupByProduct_inv (levels : List StockLevel) : groupsInv (groupByProduct levels) :=
  groupsInv_foldl levels [] ⟨List.nodup_nil, by simp⟩

theorem findCentral_mem (items : List (String × StockLevel)) :
    ∀ (acc : Option StockLevel) (c : StockLevel),
      items.foldl (fun acc kv => if kv.1 = CENTRAL_DEPOSIT_NAME then some kv.2 else acc) acc
          = some c →
        (CENTRAL_DEPOSIT_NAME, c) ∈ items ∨ acc = some c := by
  induction items with
  | nil => intro acc c h; exact Or.inr h
  | cons kv rest ih =>
    intro acc c h
    simp only [List.foldl_cons] at h
    rcases ih _ c h with h2 | h2
    · exact Or.inl (List.mem_cons_of_mem _ h2)
    · by_cases hk : kv.1 = CENTRAL_DEPOSIT_NAME
      · rw [if_pos hk] at h2
        have : kv.2 = c := Option.some_injective _ h2
        subst this
        refine Or.inl ?_
        rw [← hk]
        exact List.mem_cons_self _ _
      · rw [if_neg hk] at h2
        exact Or.inr h2

theorem findCentral_of_items {items : List (String × StockLevel)} {c : StockLevel}
    (h : findCentral items = some c) : (CENTRAL_DEPOSIT_NAME, c) ∈ items := by
  rcases findCentral_mem items none c h with h2 | h2
  · exact h2
  · exact absurd h2 (by simp)

theorem sucursalesOf_names {p : ℤ} {items : List (String × StockLevel)}
    (hinv : itemsInv p items) :
    (sucursalesOf items).map (·.deposito_nombre) =
      (items.filter (fun kv => kv.1 ≠ CENTRAL_DEPOSIT_NAME)).map (·.1) := by
  unfold sucursalesOf
  rw [List.map_map]
  refine List.map_congr_left ?_
  intro kv hkv
  have := hinv.2 kv (List.mem_of_mem_filter hkv)
  exact (this.1).symm

theorem sucursalesOf_names_nodup {p : ℤ} {items : List (String × StockLevel)}
    (hinv : itemsInv p items) :
    ((sucursalesOf items).map (·.deposito_nombre)).Nodup := by
  rw [sucursalesOf_names hinv]
  exact hinv.1.sublist ((List.filter_sublist items).map (·.1))

theorem sucursalesOf_mem {items : List (String × StockLevel)} {s : StockLevel}
    (hs : s ∈ sucursalesOf items) : ∃ k, (k, s) ∈ items ∧ k ≠ CENTRAL_DEPOSIT_NAME := by
  unfold sucursalesOf at hs
  rcases List.mem_map.mp hs with ⟨kv, hkv, rfl⟩
  exact ⟨kv.1, List.mem_of_mem_filter hkv, by simpa using List.of_mem_filter hkv⟩

theorem filter_name_eq {l : List StockLevel}
    (hn : (l.map (·.deposito_nombre)).Nodup) {s : StockLevel} (hs : s ∈ l) :
    l.filter (fun x => x.deposito_nombre = s.deposito_nombre) = [s] := by
  induction l with
  | nil => cases hs
  | cons x rest ih =>
    simp only [List.map_cons, List.nodup_cons] at hn
    rcases List.mem_cons.mp hs with rfl | hs2
    · have hr : rest.filter (fun x => x.deposito_nombre = s.deposito_nombre) = [] := by
        rw [List.filter_eq_nil_iff]
        intro a ha
        simp only [decide_eq_true_eq]
        intro hne
        exact hn.1 (hne ▸ List.mem_map_of_mem (·.deposito_nombre) ha)
      simp [List.filter_cons, hr]
    · have hx : x.deposito_nombre ≠ s.deposito_nombre := by
        intro hne
        exact hn.1 (hne ▸ List.mem_map_of_mem (·.deposito_nombre) hs2)
      simp only [List.filter_cons, decide_eq_true_eq, hx, if_false, ite_false]
      exact ih hn.2 hs2

/-!
## Group-level and run-level lemmas for central distribution
-/

theorem processGroup_none {items : List (String × StockLevel)} (pid : ℤ) (costo : ℚ)
    (tl : String) (h : findCentral items = none) :
    processGroup pid items costo tl = ([], []) := by
  simp [processGroup, h]

theorem processGroup_fst {items : List (String × StockLevel)} {central : StockLevel}
    (pid : ℤ) (costo : ℚ) (tl : String) (hc : findCentral items = some central) :
    (processGroup pid items costo tl).1 =
      (distLoop pid central costo tl
        (max 0 (central.stock_actual - central.stock_minimo)) (sucursalesOf items)).2.1 := by
  simp only [processGroup, hc]
  split_ifs <;> rfl

theorem processGroup_snd_cases {items : List (String × StockLevel)} {central : StockLevel}
    (pid : ℤ) (costo : ℚ) (tl : String) (hc : findCentral items = some central) :
    (processGroup pid items costo tl).2 =
        (distLoop pid central costo tl
          (max 0 (central.stock_actual - central.stock_minimo)) (sucursalesOf items)).2.2 ∨
      ((processGroup pid items costo tl).2 =
          (distLoop pid central costo tl
            (max 0 (central.stock_actual - central.stock_minimo)) (sucursalesOf items)).2.2 ++
            [mkNeed pid central central
              (pyRound (targetOf tl central - central.stock_actual))
              central.stock_actual (targetOf tl central) costo "Central bajo mínimo"] ∧
        central.stock_actual < central.stock_minimo) := by
  simp only [processGroup, hc]
  split_ifs with h1 h2
  · exact Or.inr ⟨rfl, h1⟩
  · exact Or.inl rfl
  · exact Or.inl rfl

theorem isPeerCause_cbm (pid : ℤ) (central dest : StockLevel) (cantidad : ℤ)
    (sad : ℚ) (so : ℚ) (costo : ℚ) :
    isPeerCause (mkNeed pid central dest cantidad sad so costo "Central bajo mínimo") = false := by
  simp [isPeerCause, mkNeed]

theorem processGroup_needs_filter {items : List (String × StockLevel)} {central : StockLevel}
    (pid : ℤ) (costo : ℚ) (tl : String) (hc : findCentral items = some central) :
    (processGroup pid items costo tl).2.filter isPeerCause =
      ((distLoop pid central costo tl
        (max 0 (central.stock_actual - central.stock_minimo)) (sucursalesOf items)).2.2).filter
        isPeerCause := by
  rcases processGroup_snd_cases pid costo tl hc with h | ⟨h, _⟩
  · rw [h]
  · rw [h, List.filter_append]
    simp [isPeerCause_cbm]

theorem processGroup_stamp (pid : ℤ) (items : List (String × StockLevel)) (costo : ℚ)
    (tl : String) :
    (∀ t ∈ (processGroup pid items costo tl).1, t.product_id = pid) ∧
      ∀ n ∈ (processGroup pid items costo tl).2, n.product_id = pid := by
  cases hc : findCentral items with
  | none => simp [processGroup_none pid costo tl hc]
  | some central =>
    constructor
    · rw [processGroup_fst pid costo tl hc]
      intro t ht
      exact ((distLoop_stamp pid central costo tl (sucursalesOf items) _).1 t ht).1
    · rcases processGroup_snd_cases pid costo tl hc with h | ⟨h, _⟩ <;> rw [h]
      · intro n hn
        exact ((distLoop_stamp pid central costo tl (sucursalesOf items) _).2 n hn).1
      · intro n hn
        rcases List.mem_append.mp hn with h2 | h2
        · exact ((distLoop_stamp pid central costo tl (sucursalesOf items) _).2 n h2).1
        · rcases List.mem_singleton.mp h2 with rfl
          rfl

theorem processGroup_cbm (pid : ℤ) (items : List (String × StockLevel)) (costo : ℚ)
    (tl : String) :
    ∀ n ∈ (processGroup pid items costo tl).2,
      n.origen_necesidad = "Central bajo mínimo" → (processGroup pid items costo tl).1 = [] := by
  cases hc : findCentral items with
  | none => simp [processGroup_none pid costo tl hc]
  | some central =>
    intro n hn hcbm
    have hpeer : ∀ m ∈ (distLoop pid central costo tl
        (max 0 (central.stock_actual - central.stock_minimo)) (sucursalesOf items)).2.2,
        m.origen_necesidad ≠ "Central bajo mínimo" := by
      intro m hm
      have := ((distLoop_stamp pid central costo tl (sucursalesOf items) _).2 m hm).2.1
      simp only [isPeerCause, decide_eq_true_eq] at this
      rcases this with h | h <;> rw [h] <;> decide
    rcases processGroup_snd_cases pid costo tl hc with h | ⟨h, hbelow⟩
    · rw [h] at hn
      exact absurd hcbm (hpeer n hn)
    · rw [h] at hn
      rcases List.mem_append.mp hn with h2 | h2
      · exact absurd hcbm (hpeer n h2)
      · have hmax : max 0 (central.stock_actual - central.stock_minimo) = 0 :=
          max_eq_left (by linarith)
        rw [processGroup_fst pid costo tl hc, hmax]
        exact distLoop_zero pid central costo tl (sucursalesOf items)

theorem distAll_cons (q : ℤ) (its : List (String × StockLevel))
    (rest : List (ℤ × List (String × StockLevel))) (costs : ℤ → ℚ) (tl : String) :
    distAll ((q, its) :: rest) costs tl =
      ((processGroup q its (costs q) tl).1 ++ (distAll rest costs tl).1,
       (processGroup q its (costs q) tl).2 ++ (distAll rest costs tl).2) := rfl

theorem distAll_mem_t (costs : ℤ → ℚ) (tl : String) :
    ∀ (groups : List (ℤ × List (String × StockLevel))) (t : TransferProposal),
      t ∈ (distAll groups costs tl).1 →
        ∃ e ∈ groups, t ∈ (processGroup e.1 e.2 (costs e.1) tl).1
  | [], t => by simp [distAll]
  | (q, its) :: rest, t => by
    rw [distAll_cons]
    intro ht
    rcases List.mem_append.mp ht with h | h
    · exact ⟨(q, its), List.mem_cons_self _ _, h⟩
    · obtain ⟨e, he, h2⟩ := distAll_mem_t costs tl rest t h
      exact ⟨e, List.mem_cons_of_mem _ he, h2⟩

theorem distAll_mem_n (costs : ℤ → ℚ) (tl : String) :
    ∀ (groups : List (ℤ × List (String × StockLevel))) (n : PurchaseNeed),
      n ∈ (distAll groups costs tl).2 →
        ∃ e ∈ groups, n ∈ (processGroup e.1 e.2 (costs e.1) tl).2
  | [], n => by simp [distAll]
  | (q, its) :: rest, n => by
    rw [distAll_cons]
    intro hn
    rcases List.mem_append.mp hn with h | h
    · exact ⟨(q, its), List.mem_cons_self _ _, h⟩
    · obtain ⟨e, he, h2⟩ := distAll_mem_n costs tl rest n h
      exact ⟨e, List.mem_cons_of_mem _ he, h2⟩

theorem distAll_filter_t (costs : ℤ → ℚ) (tl : String) (p : ℤ)
    (items : List (String × StockLevel)) :
    ∀ (groups : List (ℤ × List (String × StockLevel))),
      (groups.map (·.1)).Nodup → (p, items) ∈ groups →
        (distAll groups costs tl).1.filter (fun t => t.product_id = p) =
          (processGroup p items (costs p) tl).1
  | [], _, hm => absurd hm (by simp)
  | (q, its) :: rest, hnd, hm => by
    simp only [List.map_cons, List.nodup_cons] at hnd
    rw [distAll_cons]
    simp only [List.filter_append]
    rcases List.mem_cons.mp hm with heq | hmem
    · injection heq with h1 h2
      subst h1
      subst h2
      have h1 : (processGroup p items (costs p) tl).1.filter (fun t => t.product_id = p) =
          (processGroup p items (costs p) tl).1 := by
        rw [List.filter_eq_self]
        intro t ht
        simp [(processGroup_stamp p items (costs p) tl).1 t ht]
      have h2 : (distAll rest costs tl).1.filter (fun t => t.product_id = p) = [] := by
        rw [List.filter_eq_nil_iff]
        intro t ht
        obtain ⟨e, he, h3⟩ := distAll_mem_t costs tl rest t ht
        have := (processGroup_stamp e.1 e.2 (costs e.1) tl).1 t h3
        simp only [decide_eq_true_eq, this]
        intro hqe
        exact hnd.1 (hqe ▸ List.mem_map_of_mem (·.1) he)
      rw [h1, h2, List.append_nil]
    · have hq : q ≠ p := by
        intro hq
        exact hnd.1 (hq ▸ List.mem_map_of_mem (·.1) hmem)
      have h1 : (processGroup q its (costs q) tl).1.filter (fun t => t.product_id = p) = [] := by
        rw [List.filter_eq_nil_iff]
        intro t ht
        have := (processGroup_stamp q its (costs q) tl).1 t ht
        simp [this, hq]
      rw [h1, List.nil_append]
      exact distAll_filter_t costs tl p items rest hnd.2 hmem

theorem distAll_filter_n (costs : ℤ → ℚ) (tl : String) (p : ℤ)
    (items : List (String × StockLevel)) :
    ∀ (groups : List (ℤ × List (String × StockLevel))),
      (groups.map (·.1)).Nodup → (p, items) ∈ groups →
        (distAll groups costs tl).2.filter (fun n => n.product_id = p) =
          (processGroup p items (costs p) tl).2
  | [], _, hm => absurd hm (by simp)
  | (q, its) :: rest, hnd, hm => by
    simp only [List.map_cons, List.nodup_cons] at hnd
    rw [distAll_cons]
    simp only [List.filter_append]
    rcases List.mem_cons.mp hm with heq | hmem
    · injection heq with h1 h2
      subst h1
      subst h2
      have h1 : (processGroup p items (costs p) tl).2.filter (fun n => n.product_id = p) =
          (processGroup p items (costs p) tl).2 := by
        rw [List.filter_eq_self]
        intro n hn
        simp [(processGroup_stamp p items (costs p) tl).2 n hn]
      have h2 : (distAll rest costs tl).2.filter (fun n => n.product_id = p) = [] := by
        rw [List.filter_eq_nil_iff]
        intro n hn
        obtain ⟨e, he, h3⟩ := distAll_mem_n costs tl rest n hn
        have := (processGroup_stamp e.1 e.2 (costs e.1) tl).2 n h3
        simp only [decide_eq_true_eq, this]
        intro hqe
        exact hnd.1 (hqe ▸ List.mem_map_of_mem (·.1) he)
      rw [h1, h2, List.append_nil]
    · have hq : q ≠ p := by
        intro hq
        exact hnd.1 (hq ▸ List.mem_map_of_mem (·.1) hmem)
      have h1 : (processGroup q its (costs q) tl).2.filter (fun n => n.product_id = p) = [] := by
        rw [List.filter_eq_nil_iff]
        intro n hn
        have := (processGroup_stamp q its (costs q) tl).2 n hn
        simp [this, hq]
      rw [h1, List.nil_append]
      exact distAll_filter_n costs tl p items rest hnd.2 hmem

/-!
## Claims about `generate_distribution`
-/

/-- Claim C1: conservation law for central distribution.  For every input
`StockLevel` list, every target level, and every product that has a
central-node row, the total transferred quantity for that product plus the
total quantity of its purchase needs with cause `Sucursal sin cobertura` or
`Central sin stock` equals the sum of the peers' positive rounded deficits
`round(target - current_available)` over peers whose rounded deficit is at
least 1. -/
theorem claim_C1_conservation (stock_levels : List StockLevel) (target_level : String)
    (excluded_deposits excluded_brands : List String) (product_costs : ℤ → ℚ)
    (p : ℤ) (items : List (String × StockLevel)) (central : StockLevel)
    (hm : (p, items) ∈
      groupByProduct (filterLevels stock_levels excluded_deposits excluded_brands))
    (hc : findCentral items = some central) :
    sumT ((generate_distribution stock_levels target_level excluded_deposits
          excluded_brands product_costs).1.filter (fun t => t.product_id = p))
      + sumN ((generate_distribution stock_levels target_level excluded_deposits
          excluded_brands product_costs).2.filter
          (fun n => n.product_id = p ∧ isPeerCause n = true))
      = ((sucursalesOf items).map (posDef target_level)).sum := by
  have hinv := groupByProduct_inv (filterLevels stock_levels excluded_deposits excluded_brands)
  unfold generate_distribution
  rw [distAll_filter_t product_costs target_level p items _ hinv.1 hm]
  have hsplit : (distAll (groupByProduct (filterLevels stock_levels excluded_deposits
        excluded_brands)) product_costs target_level).2.filter
        (fun n => n.product_id = p ∧ isPeerCause n = true)
      = ((distAll (groupByProduct (filterLevels stock_levels excluded_deposits
          excluded_brands)) product_costs target_level).2.filter
          (fun n => n.product_id = p)).filter isPeerCause := by
    rw [List.filter_filter]
    apply List.filter_congr
    intro n _
    by_cases h1 : n.product_id = p <;> by_cases h2 : isPeerCause n = true <;>
      simp [h1, h2]
  rw [hsplit, distAll_filter_n product_costs target_level p items _ hinv.1 hm]
  rw [processGroup_fst p (product_costs p) target_level hc,
    processGroup_needs_filter p (product_costs p) target_level hc]
  have hcons := distLoop_conservation (fun _ => true) p central (product_costs p)
    target_level (sucursalesOf items) (max 0 (central.stock_actual - central.stock_minimo))
  simpa using hcons

/-- Claim C4: central give-away cap.  The total quantity transferred out of
the central node for one product never exceeds
`max(0, central.stock_actual - central.stock_minimo)` computed once from the
input snapshot. -/
theorem claim_C4_cap (stock_levels : List StockLevel) (target_level : String)
    (excluded_deposits excluded_brands : List String) (product_costs : ℤ → ℚ)
    (p : ℤ) (items : List (String × StockLevel)) (central : StockLevel)
    (hm : (p, items) ∈
      groupByProduct (filterLevels stock_levels excluded_deposits excluded_brands))
    (hc : findCentral items = some central) :
    (sumT ((generate_distribution stock_levels target_level excluded_deposits
        excluded_brands product_costs).1.filter (fun t => t.product_id = p)) : ℚ)
      ≤ max 0 (central.stock_actual - central.stock_minimo) := by
  have hinv := groupByProduct_inv (filterLevels stock_levels excluded_deposits excluded_brands)
  unfold generate_distribution
  rw [distAll_filter_t product_costs target_level p items _ hinv.1 hm]
  rw [processGroup_fst p (product_costs p) target_level hc]
  have hpool := distLoop_pool p central (product_costs p) target_level (sucursalesOf items)
    (max 0 (central.stock_actual - central.stock_minimo)) (le_max_left 0 _)
  linarith [hpool.1, hpool.2]

/-- Claim C10: mutual exclusion of the central's own purchase need and
outgoing transfers.  If `generate_distribution` emits a need with cause
`Central bajo mínimo` for a product, it emits no transfer for that
product. -/
theorem claim_C10_exclusion (stock_levels : List StockLevel) (target_level : String)
    (excluded_deposits excluded_brands : List String) (product_costs : ℤ → ℚ)
    (p : ℤ) (n : PurchaseNeed)
    (hn : n ∈ (generate_distribution stock_levels target_level excluded_deposits
        excluded_brands product_costs).2)
    (hcause : n.origen_necesidad = "Central bajo mínimo")
    (hp : n.product_id = p) :
    (generate_distribution stock_levels target_level excluded_deposits
        excluded_brands product_costs).1.filter (fun t => t.product_id = p) = [] := by
  have hinv := groupByProduct_inv (filterLevels stock_levels excluded_deposits excluded_brands)
  unfold generate_distribution at hn ⊢
  obtain ⟨e, he, hmem⟩ := distAll_mem_n product_costs target_level _ n hn
  obtain ⟨q, its⟩ := e
  have hq : n.product_id = q := (processGroup_stamp q its (product_costs q) target_level).2 n hmem
  have hqp : q = p := by rw [← hp, hq]
  subst hqp
  rw [distAll_filter_t product_costs target_level q its _ hinv.1 he]
  exact processGroup_cbm q its (product_costs q) target_level n hmem hcause

/-- Claim C9 (amended): a peer whose three targets are all 0 is treated as
having deficit `-stock_actual`; the transfers plus peer purchase needs
destined to it total `round(-stock_actual)` when that rounds to at least one
unit, and 0 otherwise (in particular a small negative stock such as `-0.4`
receives nothing). -/
theorem claim_C9_amended (stock_levels : List StockLevel) (target_level : String)
    (excluded_deposits excluded_brands : List String) (product_costs : ℤ → ℚ)
    (p : ℤ) (items : List (String × StockLevel)) (central s : StockLevel)
    (hm : (p, items) ∈
      groupByProduct (filterLevels stock_levels excluded_deposits excluded_brands))
    (hc : findCentral items = some central)
    (hs : s ∈ sucursalesOf items)
    (hmin : s.stock_minimo = 0) (hideal : s.stock_ideal = 0) (hmax : s.stock_maximo = 0)
    (hneg : s.stock_actual < 0) :
    sumT ((generate_distribution stock_levels target_level excluded_deposits
          excluded_brands product_costs).1.filter
          (fun t => t.product_id = p ∧ t.deposit_destino_nombre = s.deposito_nombre))
      + sumN ((generate_distribution stock_levels target_level excluded_deposits
          excluded_brands product_costs).2.filter
          (fun n => n.product_id = p ∧ isPeerCause n = true ∧
            n.deposit_destino_nombre = s.deposito_nombre))
      = if 1 ≤ pyRound (-s.stock_actual) then pyRound (-s.stock_actual) else 0 := by
  have hinv := groupByProduct_inv (filterLevels stock_levels excluded_deposits excluded_brands)
  have hitems : itemsInv p items := hinv.2 (p, items) hm
  unfold generate_distribution
  have hsplitT : (distAll (groupByProduct (filterLevels stock_levels excluded_deposits
        excluded_brands)) product_costs target_level).1.filter
        (fun t => t.product_id = p ∧ t.deposit_destino_nombre = s.deposito_nombre)
      = ((distAll (groupByProduct (filterLevels stock_levels excluded_deposits
          excluded_brands)) product_costs target_level).1.filter
          (fun t => t.product_id = p)).filter
          (fun t => t.deposit_destino_nombre = s.deposito_nombre) := by
    rw [List.filter_filter]
    apply List.filter_congr
    intro t _
    by_cases h1 : t.product_id = p <;>
      by_cases h2 : t.deposit_destino_nombre = s.deposito_nombre <;> simp [h1, h2]
  have hsplitN : (distAll (groupByProduct (filterLevels stock_levels excluded_deposits
        excluded_brands)) product_costs target_level).2.filter
        (fun n => n.product_id = p ∧ isPeerCause n = true ∧
          n.deposit_destino_nombre = s.deposito_nombre)
      = (((distAll (groupByProduct (filterLevels stock_levels excluded_deposits
          excluded_brands)) product_costs target_level).2.filter
          (fun n => n.product_id = p)).filter isPeerCause).filter
          (fun n => n.deposit_destino_nombre = s.deposito_nombre) := by
    rw [List.filter_filter, List.filter_filter]
    apply List.filter_congr
    intro n _
    by_cases h1 : n.product_id = p <;> by_cases h2 : isPeerCause n = true <;>
      by_cases h3 : n.deposit_destino_nombre = s.deposito_nombre <;> simp [h1, h2, h3]
  rw [hsplitT, hsplitN,
    distAll_filter_t product_costs target_level p items _ hinv.1 hm,
    distAll_filter_n product_costs target_level p items _ hinv.1 hm,
    processGroup_fst p (product_costs p) target_level hc,
    processGroup_needs_filter p (product_costs p) target_level hc]
  have hcons := distLoop_conservation (fun name => name = s.deposito_nombre) p central
    (product_costs p) target_level (sucursalesOf items)
    (max 0 (central.stock_actual - central.stock_minimo))
  rw [hcons]
  rw [filter_name_eq (sucursalesOf_names_nodup hitems) hs]
  have htarget : targetOf target_level s = 0 := by
    unfold targetOf
    split_ifs <;> simp [hmin, hideal, hmax]
  simp only [List.map_cons, List.map_nil, List.sum_cons, List.sum_nil, add_zero]
  unfold posDef faltanteInt
  rw [htarget, zero_sub]

/-!
## Concrete scenario of §8 of the spec (claim C6) and witnesses
-/

/-- Central row of the end-to-end scenario: `current_available = 120`,
`stock_minimum = 50`. -/
def slCentralC6 : StockLevel :=
  { product_id := 1, deposit_id := 9, deposito_nombre := "DEPOSITO RUTA 9",
    stock_actual := 120, stock_minimo := 50, stock_ideal := 60, stock_maximo := 80 }

/-- Peer A of the scenario: ideal-target deficit 40. -/
def slAC6 : StockLevel :=
  { product_id := 1, deposit_id := 2, deposito_nombre := "SUCURSAL A",
    stock_actual := 0, stock_minimo := 20, stock_ideal := 40, stock_maximo := 60 }

/-- Peer B of the scenario: ideal-target deficit 50. -/
def slBC6 : StockLevel :=
  { product_id := 1, deposit_id := 3, deposito_nombre := "SUCURSAL B",
    stock_actual := 0, stock_minimo := 25, stock_ideal := 50, stock_maximo := 70 }

/-- Claim C6: end-to-end central allocation scenario.  With a central pool of
70, peer A (deficit 40, processed first) is fully covered, peer B (deficit
50) gets the remaining 30 plus a `Sucursal sin cobertura` purchase need of
20. -/
theorem claim_C6_scenario :
    ((generate_distribution [slCentralC6, slAC6, slBC6] "ideal" [] [] (fun _ => 0)).1.map
        (fun t => (t.deposit_destino_nombre, t.cantidad_transferir)) =
      [("SUCURSAL A", 40), ("SUCURSAL B", 30)]) ∧
    ((generate_distribution [slCentralC6, slAC6, slBC6] "ideal" [] [] (fun _ => 0)).2.map
        (fun n => (n.deposit_destino_nombre, n.cantidad_necesaria, n.origen_necesidad)) =
      [("SUCURSAL B", 20, "Sucursal sin cobertura")]) := by
  norm_num [generate_distribution, filterLevels, groupByProduct, groupAdd, upsert,
    distAll, processGroup, findCentral, sucursalesOf, distLoop, stepSucursal,
    targetOf, faltanteInt, pyRound, pyTrunc, mkTransfer, mkNeed,
    CENTRAL_DEPOSIT_NAME, slCentralC6, slAC6, slBC6, List.foldl, List.filter,
    (show ¬ "SUCURSAL A" = "DEPOSITO RUTA 9" by decide),
    (show ¬ "SUCURSAL B" = "DEPOSITO RUTA 9" by decide),
    (show ¬ "DEPOSITO RUTA 9" = "SUCURSAL A" by decide),
    (show ¬ "DEPOSITO RUTA 9" = "SUCURSAL B" by decide),
    (show ¬ "SUCURSAL A" = "SUCURSAL B" by decide),
    (show ¬ "SUCURSAL B" = "SUCURSAL A" by decide),
    (show ¬ "ideal" = "minimo" by decide),
    (show ¬ "ideal" = "maximo" by decide)]

/-- Concrete central row for the C1 witness (pool `120 - 50 = 70`). -/
def wC1central : StockLevel :=
  { product_id := 1, deposit_id := 9, deposito_nombre := "DEPOSITO RUTA 9",
    stock_actual := 120, stock_minimo := 50, stock_ideal := 60, stock_maximo := 80 }

/-- Concrete peer with ideal-target deficit 40 for the C1 witness. -/
def wC1a : StockLevel :=
  { product_id := 1, deposit_id := 2, deposito_nombre := "SUCURSAL A",
    stock_actual := 0, stock_minimo := 20, stock_ideal := 40, stock_maximo := 60 }

/-- Concrete peer with ideal-target deficit 50 for the C1 witness. -/
def wC1b : StockLevel :=
  { product_id := 1, deposit_id := 3, deposito_nombre := "SUCURSAL B",
    stock_actual := 0, stock_minimo := 25, stock_ideal := 50, stock_maximo := 70 }

theorem claim_C1_conservation_witness :
    (1, [("DEPOSITO RUTA 9", wC1central), ("SUCURSAL A", wC1a), ("SUCURSAL B", wC1b)]) ∈
        groupByProduct (filterLevels [wC1central, wC1a, wC1b] [] []) ∧
      findCentral [("DEPOSITO RUTA 9", wC1central), ("SUCURSAL A", wC1a), ("SUCURSAL B", wC1b)]
        = some wC1central ∧
      sumT ((generate_distribution [wC1central, wC1a, wC1b] "ideal" [] [] (fun _ => 0)).1.filter
          (fun t => t.product_id = 1))
        + sumN ((generate_distribution [wC1central, wC1a, wC1b] "ideal" [] [] (fun _ => 0)).2.filter
          (fun n => n.product_id = 1 ∧ isPeerCause n = true))
        = ((sucursalesOf [("DEPOSITO RUTA 9", wC1central), ("SUCURSAL A", wC1a),
            ("SUCURSAL B", wC1b)]).map (posDef "ideal")).sum := by
  have h1 : (1, [("DEPOSITO RUTA 9", wC1central), ("SUCURSAL A", wC1a), ("SUCURSAL B", wC1b)]) ∈
      groupByProduct (filterLevels [wC1central, wC1a, wC1b] [] []) := by
    norm_num [groupByProduct, groupAdd, upsert, filterLevels, List.foldl, List.filter,
      wC1central, wC1a, wC1b,
      (show ¬ "SUCURSAL A" = "DEPOSITO RUTA 9" by decide),
      (show ¬ "SUCURSAL B" = "DEPOSITO RUTA 9" by decide),
      (show ¬ "DEPOSITO RUTA 9" = "SUCURSAL A" by decide),
      (show ¬ "DEPOSITO RUTA 9" = "SUCURSAL B" by decide),
      (show ¬ "SUCURSAL A" = "SUCURSAL B" by decide),
      (show ¬ "SUCURSAL B" = "SUCURSAL A" by decide)]
  have h2 : findCentral [("DEPOSITO RUTA 9", wC1central), ("SUCURSAL A", wC1a),
      ("SUCURSAL B", wC1b)] = some wC1central := by
    norm_num [findCentral, CENTRAL_DEPOSIT_NAME, List.foldl,
      (show ¬ "SUCURSAL A" = "DEPOSITO RUTA 9" by decide),
      (show ¬ "SUCURSAL B" = "DEPOSITO RUTA 9" by decide)]
  exact ⟨h1, h2, claim_C1_conservation [wC1central, wC1a, wC1b] "ideal" [] [] (fun _ => 0)
    1 _ wC1central h1 h2⟩

/-- Concrete central row for the C4 witness. -/
def wC4central : StockLevel :=
  { product_id := 1, deposit_id := 9, deposito_nombre := "DEPOSITO RUTA 9",
    stock_actual := 120, stock_minimo := 50, stock_ideal := 60, stock_maximo := 80 }

/-- Concrete peer for the C4 witness (deficit 90 exceeds the pool of 70). -/
def wC4a : StockLevel :=
  { product_id := 1, deposit_id := 2, deposito_nombre := "SUCURSAL A",
    stock_actual := 0, stock_minimo := 45, stock_ideal := 90, stock_maximo := 180 }

theorem claim_C4_cap_witness :
    (1, [("DEPOSITO RUTA 9", wC4central), ("SUCURSAL A", wC4a)]) ∈
        groupByProduct (filterLevels [wC4central, wC4a] [] []) ∧
      findCentral [("DEPOSITO RUTA 9", wC4central), ("SUCURSAL A", wC4a)] = some wC4central ∧
      (sumT ((generate_distribution [wC4central, wC4a] "ideal" [] [] (fun _ => 0)).1.filter
          (fun t => t.product_id = 1)) : ℚ)
        ≤ max 0 (wC4central.stock_actual - wC4central.stock_minimo) := by
  have h1 : (1, [("DEPOSITO RUTA 9", wC4central), ("SUCURSAL A", wC4a)]) ∈
      groupByProduct (filterLevels [wC4central, wC4a] [] []) := by
    norm_num [groupByProduct, groupAdd, upsert, filterLevels, List.foldl, List.filter,
      wC4central, wC4a,
      (show ¬ "SUCURSAL A" = "DEPOSITO RUTA 9" by decide),
      (show ¬ "DEPOSITO RUTA 9" = "SUCURSAL A" by decide)]
  have h2 : findCentral [("DEPOSITO RUTA 9", wC4central), ("SUCURSAL A", wC4a)]
      = some wC4central := by
    norm_num [findCentral, CENTRAL_DEPOSIT_NAME, List.foldl,
      (show ¬ "SUCURSAL A" = "DEPOSITO RUTA 9" by decide)]
  exact ⟨h1, h2, claim_C4_cap [wC4central, wC4a] "ideal" [] [] (fun _ => 0)
    1 _ wC4central h1 h2⟩

/-- Concrete central row for the C10 witness: below its own minimum. -/
def wC10central : StockLevel :=
  { product_id := 1, deposit_id := 9, deposito_nombre := "DEPOSITO RUTA 9",
    stock_actual := 10, stock_minimo := 50, stock_ideal := 60, stock_maximo := 80 }

/-- Concrete peer for the C10 witness: needs 5 units with the pool empty. -/
def wC10a : StockLevel :=
  { product_id := 1, deposit_id := 2, deposito_nombre := "SUCURSAL A",
    stock_actual := 0, stock_minimo := 3, stock_ideal := 5, stock_maximo := 10 }

/-- The `Central bajo mínimo` purchase need that the C10 input produces. -/
def wC10n : PurchaseNeed :=
  { product_id := 1, deposit_destino_id := 9, deposit_destino_nombre := "DEPOSITO RUTA 9",
    cantidad_necesaria := 50, stock_actual_destino := 10, stock_objetivo_destino := 60,
    stock_central_actual := 10, stock_central_minimo := 50, costo_unitario := 0,
    costo_total := 0, origen_necesidad := "Central bajo mínimo" }

theorem claim_C10_exclusion_witness :
    wC10n ∈ (generate_distribution [wC10central, wC10a] "ideal" [] [] (fun _ => 0)).2 ∧
      wC10n.origen_necesidad = "Central bajo mínimo" ∧
      wC10n.product_id = 1 ∧
      (generate_distribution [wC10central, wC10a] "ideal" [] [] (fun _ => 0)).1.filter
        (fun t => t.product_id = 1) = [] := by
  have h1 : wC10n ∈ (generate_distribution [wC10central, wC10a] "ideal" [] [] (fun _ => 0)).2 := by
    norm_num [generate_distribution, filterLevels, groupByProduct, groupAdd, upsert,
      distAll, processGroup, findCentral, sucursalesOf, distLoop, stepSucursal,
      targetOf, faltanteInt, pyRound, pyTrunc, mkTransfer, mkNeed,
      CENTRAL_DEPOSIT_NAME, wC10central, wC10a, wC10n, List.foldl, List.filter,
      (show ¬ "SUCURSAL A" = "DEPOSITO RUTA 9" by decide),
      (show ¬ "DEPOSITO RUTA 9" = "SUCURSAL A" by decide),
      (show ¬ "ideal" = "minimo" by decide),
      (show ¬ "ideal" = "maximo" by decide)]
  exact ⟨h1, rfl, rfl, claim_C10_exclusion [wC10central, wC10a] "ideal" [] [] (fun _ => 0)
    1 wC10n h1 rfl rfl⟩

/-- Concrete central row for the C9 witness (large pool, minimum 0). -/
def wC9central : StockLevel :=
  { product_id := 1, deposit_id := 9, deposito_nombre := "DEPOSITO RUTA 9",
    stock_actual := 100, stock_minimo := 0, stock_ideal := 0, stock_maximo := 0 }

/-- Concrete suppressed peer with negative stock `-3` for the C9 witness. -/
def wC9s : StockLevel :=
  { product_id := 1, deposit_id := 2, deposito_nombre := "SUCURSAL A",
    stock_actual := -3, stock_minimo := 0, stock_ideal := 0, stock_maximo := 0 }

theorem claim_C9_amended_witness :
    (1, [("DEPOSITO RUTA 9", wC9central), ("SUCURSAL A", wC9s)]) ∈
        groupByProduct (filterLevels [wC9central, wC9s] [] []) ∧
      findCentral [("DEPOSITO RUTA 9", wC9central), ("SUCURSAL A", wC9s)] = some wC9central ∧
      wC9s ∈ sucursalesOf [("DEPOSITO RUTA 9", wC9central), ("SUCURSAL A", wC9s)] ∧
      wC9s.stock_minimo = 0 ∧ wC9s.stock_ideal = 0 ∧ wC9s.stock_maximo = 0 ∧
      wC9s.stock_actual < 0 ∧
      sumT ((generate_distribution [wC9central, wC9s] "ideal" [] [] (fun _ => 0)).1.filter
          (fun t => t.product_id = 1 ∧ t.deposit_destino_nombre = wC9s.deposito_nombre))
        + sumN ((generate_distribution [wC9central, wC9s] "ideal" [] [] (fun _ => 0)).2.filter
          (fun n => n.product_id = 1 ∧ isPeerCause n = true ∧
            n.deposit_destino_nombre = wC9s.deposito_nombre))
        = if 1 ≤ pyRound (-wC9s.stock_actual) then pyRound (-wC9s.stock_actual) else 0 := by
  have h1 : (1, [("DEPOSITO RUTA 9", wC9central), ("SUCURSAL A", wC9s)]) ∈
      groupByProduct (filterLevels [wC9central, wC9s] [] []) := by
    norm_num [groupByProduct, groupAdd, upsert, filterLevels, List.foldl, List.filter,
      wC9central, wC9s,
      (show ¬ "SUCURSAL A" = "DEPOSITO RUTA 9" by decide),
      (show ¬ "DEPOSITO RUTA 9" = "SUCURSAL A" by decide)]
  have h2 : findCentral [("DEPOSITO RUTA 9", wC9central), ("SUCURSAL A", wC9s)]
      = some wC9central := by
    norm_num [findCentral, CENTRAL_DEPOSIT_NAME, List.foldl,
      (show ¬ "SUCURSAL A" = "DEPOSITO RUTA 9" by decide)]
  have h3 : wC9s ∈ sucursalesOf [("DEPOSITO RUTA 9", wC9central), ("SUCURSAL A", wC9s)] := by
    norm_num [sucursalesOf, CENTRAL_DEPOSIT_NAME, List.filter,
      (show ¬ "SUCURSAL A" = "DEPOSITO RUTA 9" by decide)]
  refine ⟨h1, h2, h3, rfl, rfl, rfl, by norm_num [wC9s], ?_⟩
  exact claim_C9_amended [wC9central, wC9s] "ideal" [] [] (fun _ => 0)
    1 _ wC9central wC9s h1 h2 h3 rfl rfl rfl (by norm_num [wC9s])

/-!
## Peer redistribution (`DistributionService.generate_excess_redistribution`)

Lines 534-673: per product, every deposit with `stock_actual > stock_maximo`
(and `stock_maximo > 0`) offers `stock_actual - stock_ideal` (kept if `>= 1`);
every deposit with `target - stock_actual >= 1` and `stock_actual <
stock_ideal` asks for `target - stock_actual`.  Both lists are stably sorted
in descending order and paired greedily, mutating the remaining amounts.
-/

/-- One entry of the `excedentes` list. -/
structure ExcEntry where
  sl : StockLevel
  excedente_disponible : ℚ

/-- One entry of the `faltantes` list. -/
structure FalEntry where
  sl : StockLevel
  faltante : ℚ
  stock_objetivo : ℚ

/-- The `excedentes` accumulation over the dict items, in dict order. -/
def excedentesOf (items : List (String × StockLevel)) : List ExcEntry :=
  items.filterMap (fun kv =>
    if kv.2.stock_maximo < kv.2.stock_actual ∧ 0 < kv.2.stock_maximo then
      if 1 ≤ kv.2.stock_actual - kv.2.stock_ideal then
        some ⟨kv.2, kv.2.stock_actual - kv.2.stock_ideal⟩
      else none
    else none)

/-- The `faltantes` accumulation over the dict items, in dict order. -/
def faltantesOf (target_level : String) (items : List (String × StockLevel)) :
    List FalEntry :=
  items.filterMap (fun kv =>
    if 1 ≤ targetOf target_level kv.2 - kv.2.stock_actual ∧
        kv.2.stock_actual < kv.2.stock_ideal then
      some ⟨kv.2, targetOf target_level kv.2 - kv.2.stock_actual, targetOf target_level kv.2⟩
    else none)

/-- `excedentes.sort(key=..., reverse=True)`: stable descending sort. -/
def sortExc (l : List ExcEntry) : List ExcEntry :=
  l.mergeSort (fun a b => b.excedente_disponible ≤ a.excedente_disponible)

/-- `faltantes.sort(key=..., reverse=True)`: stable descending sort. -/
def sortFal (l : List FalEntry) : List FalEntry :=
  l.mergeSort (fun a b => b.faltante ≤ a.faltante)

/-- The inner `for fal in faltantes` loop for one surplus deposit: returns
the remaining surplus, the transfers emitted, and the updated `faltantes`
(entries are mutated in place in the source). -/
def redistInner (product_id : ℤ) (origen : StockLevel) :
    ℚ → List FalEntry → ℚ × List TransferProposal × List FalEntry
  | avail, [] => (avail, [], [])
  | avail, fal :: rest =>
    if fal.faltante ≤ 0 then
      ((redistInner product_id origen avail rest).1,
       (redistInner product_id origen avail rest).2.1,
       fal :: (redistInner product_id origen avail rest).2.2)
    else if avail ≤ 0 then
      (avail, [], fal :: rest)
    else if pyRound (min avail fal.faltante) < 1 then
      ((redistInner product_id origen avail rest).1,
       (redistInner product_id origen avail rest).2.1,
       fal :: (redistInner product_id origen avail rest).2.2)
    else
      ((redistInner product_id origen (avail - pyRound (min avail fal.faltante)) rest).1,
       mkTransfer product_id origen fal.sl (pyRound (min avail fal.faltante))
         (origen.stock_actual - pyRound (min avail fal.faltante)) fal.stock_objetivo
         :: (redistInner product_id origen (avail - pyRound (min avail fal.faltante)) rest).2.1,
       { fal with faltante := fal.faltante - pyRound (min avail fal.faltante) }
         :: (redistInner product_id origen (avail - pyRound (min avail fal.faltante)) rest).2.2)

/-- The outer `for exc in excedentes` loop. -/
def redistOuter (product_id : ℤ) : List ExcEntry → List FalEntry → List TransferProposal
  | [], _ => []
  | exc :: rest, fals =>
    if exc.excedente_disponible ≤ 0 then redistOuter product_id rest fals
    else
      (redistInner product_id exc.sl exc.excedente_disponible fals).2.1 ++
        redistOuter product_id rest
          (redistInner product_id exc.sl exc.excedente_disponible fals).2.2

/-- One product of `generate_excess_redistribution`. -/
def redistGroup (product_id : ℤ) (items : List (String × StockLevel))
    (target_level : String) : List TransferProposal :=
  redistOuter product_id (sortExc (excedentesOf items))
    (sortFal (faltantesOf target_level items))

/-- The product loop of `generate_excess_redistribution`. -/
def redistAll (groups : List (ℤ × List (String × StockLevel))) (target_level : String) :
    List TransferProposal :=
  match groups with
  | [] => []
  | (p, items) :: rest => redistGroup p items target_level ++ redistAll rest target_level

/-- `DistributionService.generate_excess_redistribution` (without the summary
dict).  It never produces purchase needs. -/
def generate_excess_redistribution (stock_levels : List StockLevel)
    (target_level : String) (excluded_deposits : List String) :
    List TransferProposal × List PurchaseNeed :=
  (redistAll (groupByProduct (stock_levels.filter
      (fun sl => sl.deposito_nombre ∉ excluded_deposits))) target_level,
   [])

/-!
## Invariants of the redistribution loops
-/

/-- The half-unit rounding potential of one deficit entry. -/
def potF (f : FalEntry) : ℤ := max 0 ⌊f.faltante + 1/2⌋

/-- Total potential of a deficit list. -/
def sumPotF (fals : List FalEntry) : ℤ := (fals.map potF).sum

/-- Complete case analysis of one step of the inner redistribution loop. -/
theorem redistInner_cases (pid : ℤ) (origen : StockLevel) (avail : ℚ) (fal : FalEntry)
    (rest : List FalEntry) :
    (fal.faltante ≤ 0 ∧
      redistInner pid origen avail (fal :: rest) =
        ((redistInner pid origen avail rest).1,
         (redistInner pid origen avail rest).2.1,
         fal :: (redistInner pid origen avail rest).2.2)) ∨
    (¬ fal.faltante ≤ 0 ∧ avail ≤ 0 ∧
      redistInner pid origen avail (fal :: rest) = (avail, [], fal :: rest)) ∨
    (¬ fal.faltante ≤ 0 ∧ ¬ avail ≤ 0 ∧ pyRound (min avail fal.faltante) < 1 ∧
      redistInner pid origen avail (fal :: rest) =
        ((redistInner pid origen avail rest).1,
         (redistInner pid origen avail rest).2.1,
         fal :: (redistInner pid origen avail rest).2.2)) ∨
    (¬ fal.faltante ≤ 0 ∧ ¬ avail ≤ 0 ∧ 1 ≤ pyRound (min avail fal.faltante) ∧
      redistInner pid origen avail (fal :: rest) =
        ((redistInner pid origen (avail - pyRound (min avail fal.faltante)) rest).1,
         mkTransfer pid origen fal.sl (pyRound (min avail fal.faltante))
           (origen.stock_actual - pyRound (min avail fal.faltante)) fal.stock_objetivo
           :: (redistInner pid origen (avail - pyRound (min avail fal.faltante)) rest).2.1,
         { fal with faltante := fal.faltante - pyRound (min avail fal.faltante) }
           :: (redistInner pid origen (avail - pyRound (min avail fal.faltante)) rest).2.2)) := by
  by_cases h1 : fal.faltante ≤ 0
  · exact Or.inl ⟨h1, by simp only [redistInner, if_pos h1]⟩
  · by_cases h2 : avail ≤ 0
    · exact Or.inr (Or.inl ⟨h1, h2, by simp only [redistInner, if_neg h1, if_pos h2]⟩)
    · by_cases h3 : pyRound (min avail fal.faltante) < 1
      · exact Or.inr (Or.inr (Or.inl ⟨h1, h2, h3,
          by simp only [redistInner, if_neg h1, if_neg h2, if_pos h3]⟩))
      · exact Or.inr (Or.inr (Or.inr ⟨h1, h2, by omega,
          by simp only [redistInner, if_neg h1, if_neg h2, if_neg h3]⟩))

/-- Mutation never changes which stock rows sit in the deficit list. -/
theorem redistInner_sl (pid : ℤ) (origen : StockLevel) :
    ∀ (fals : List FalEntry) (avail : ℚ),
      ((redistInner pid origen avail fals).2.2).map (·.sl) = fals.map (·.sl)
  | [], avail => by simp [redistInner]
  | fal :: rest, avail => by
    rcases redistInner_cases pid origen avail fal rest with
      ⟨_, he⟩ | ⟨_, _, he⟩ | ⟨_, _, _, he⟩ | ⟨_, _, _, he⟩ <;> rw [he] <;>
      simp [redistInner_sl pid origen rest]

/-- Every transfer the inner loop emits moves at least one unit from
`origen` to some entry of the deficit list. -/
theorem redistInner_mem (pid : ℤ) (origen : StockLevel) :
    ∀ (fals : List FalEntry) (avail : ℚ) (t : TransferProposal),
      t ∈ (redistInner pid origen avail fals).2.1 →
        ∃ q : ℤ, ∃ fal ∈ fals, 1 ≤ q ∧
          t = mkTransfer pid origen fal.sl q (origen.stock_actual - q) fal.stock_objetivo
  | [], avail, t => by simp [redistInner]
  | fal :: rest, avail, t => by
    rcases redistInner_cases pid origen avail fal rest with
      ⟨_, he⟩ | ⟨_, _, he⟩ | ⟨_, _, _, he⟩ | ⟨_, _, hq, he⟩ <;> rw [he] <;> intro ht
    · obtain ⟨q, f, hf, h1, h2⟩ := redistInner_mem pid origen rest avail t ht
      exact ⟨q, f, List.mem_cons_of_mem _ hf, h1, h2⟩
    · simp at ht
    · obtain ⟨q, f, hf, h1, h2⟩ := redistInner_mem pid origen rest avail t ht
      exact ⟨q, f, List.mem_cons_of_mem _ hf, h1, h2⟩
    · rcases List.mem_cons.mp ht with rfl | ht2
      · exact ⟨pyRound (min avail fal.faltante), fal, List.mem_cons_self _ _, hq, rfl⟩
      · obtain ⟨q, f, hf, h1, h2⟩ := redistInner_mem pid origen rest _ t ht2
        exact ⟨q, f, List.mem_cons_of_mem _ hf, h1, h2⟩

/-- The inner loop gives away at most `avail + 1/2` in total. -/
theorem redistInner_bound (pid : ℤ) (origen : StockLevel) :
    ∀ (fals : List FalEntry) (avail : ℚ),
      (sumT (redistInner pid origen avail fals).2.1 : ℚ) ≤ max 0 (avail + 1/2)
  | [], avail => by
    simp only [redistInner, sumT, List.map_nil, List.sum_nil, Int.cast_zero]
    exact le_max_left 0 _
  | fal :: rest, avail => by
    rcases redistInner_cases pid origen avail fal rest with
      ⟨_, he⟩ | ⟨_, _, he⟩ | ⟨_, _, _, he⟩ | ⟨_, h2, hq, he⟩ <;> rw [he]
    · exact redistInner_bound pid origen rest avail
    · simp only [sumT, List.map_nil, List.sum_nil, Int.cast_zero]
      exact le_max_left 0 _
    · exact redistInner_bound pid origen rest avail
    · have havail : 0 < avail := lt_of_not_le h2
      have hqle : (pyRound (min avail fal.faltante) : ℚ) ≤ avail + 1/2 := by
        calc (pyRound (min avail fal.faltante) : ℚ) ≤ min avail fal.faltante + 1/2 :=
              pyRound_le _
          _ ≤ avail + 1/2 := by
              have := min_le_left avail fal.faltante
              linarith
      have ih := redistInner_bound pid origen rest (avail - pyRound (min avail fal.faltante))
      simp only [sumT, List.map_cons, List.sum_cons] at *
      have hmk : (mkTransfer pid origen fal.sl (pyRound (min avail fal.faltante))
          (origen.stock_actual - pyRound (min avail fal.faltante))
          fal.stock_objetivo).cantidad_transferir = pyRound (min avail fal.faltante) := rfl
      rw [hmk]
      push_cast
      rcases le_total (avail - (pyRound (min avail fal.faltante) : ℚ) + 1/2) 0 with hc | hc
      · rw [max_eq_left hc] at ih
        have hmax : (0 : ℚ) ≤ avail + 1/2 := by linarith
        rw [max_eq_right hmax]
        push_cast at ih
        linarith
      · rw [max_eq_right hc] at ih
        have hmax : (0 : ℚ) ≤ avail + 1/2 := by linarith
        rw [max_eq_right hmax]
        push_cast at ih
        linarith

/-- Integer form of `redistInner_bound`. -/
theorem redistInner_bound_int (pid : ℤ) (origen : StockLevel) (fals : List FalEntry)
    (avail : ℚ) :
    sumT (redistInner pid origen avail fals).2.1 ≤ max 0 ⌊avail + 1/2⌋ := by
  have h := redistInner_bound pid origen fals avail
  rcases le_total (avail + 1/2) 0 with hc | hc
  · rw [max_eq_left hc] at h
    have : sumT (redistInner pid origen avail fals).2.1 ≤ 0 := by exact_mod_cast h
    omega
  · rw [max_eq_right hc] at h
    have : sumT (redistInner pid origen avail fals).2.1 ≤ ⌊avail + 1/2⌋ :=
      Int.le_floor.mpr h
    omega

/-- The inner loop never fills any deficit entry past its rounding
potential: quantity emitted plus remaining potential never grows. -/
theorem redistInner_pot (pid : ℤ) (origen : StockLevel) :
    ∀ (fals : List FalEntry) (avail : ℚ),
      sumT (redistInner pid origen avail fals).2.1
          + sumPotF (redistInner pid origen avail fals).2.2
        ≤ sumPotF fals
  | [], avail => by simp [redistInner, sumT, sumPotF]
  | fal :: rest, avail => by
    rcases redistInner_cases pid origen avail fal rest with
      ⟨_, he⟩ | ⟨_, _, he⟩ | ⟨_, _, _, he⟩ | ⟨h1, h2, hq, he⟩ <;> rw [he] <;>
      simp only [sumT, sumPotF, List.map_cons, List.sum_cons, List.map_nil, List.sum_nil]
    · have ih := redistInner_pot pid origen rest avail
      simp only [sumT, sumPotF] at ih
      omega
    · omega
    · have ih := redistInner_pot pid origen rest avail
      simp only [sumT, sumPotF] at ih
      omega
    · have ih := redistInner_pot pid origen rest (avail - pyRound (min avail fal.faltante))
      simp only [sumT, sumPotF] at ih
      have hmk : (mkTransfer pid origen fal.sl (pyRound (min avail fal.faltante))
          (origen.stock_actual - pyRound (min avail fal.faltante))
          fal.stock_objetivo).cantidad_transferir = pyRound (min avail fal.faltante) := rfl
      rw [hmk]
      have hqf : (pyRound (min avail fal.faltante) : ℚ) ≤ fal.faltante + 1/2 := by
        calc (pyRound (min avail fal.faltante) : ℚ) ≤ min avail fal.faltante + 1/2 :=
              pyRound_le _
          _ ≤ fal.faltante + 1/2 := by
              have := min_le_right avail fal.faltante
              linarith
      have hqfloor : pyRound (min avail fal.faltante) ≤ ⌊fal.faltante + 1/2⌋ :=
        Int.le_floor.mpr hqf
      have hpot : potF { fal with faltante := fal.faltante - pyRound (min avail fal.faltante) }
          = max 0 (⌊fal.faltante + 1/2⌋ - pyRound (min avail fal.faltante)) := by
        unfold potF
        simp only
        rw [show fal.faltante - (pyRound (min avail fal.faltante) : ℚ) + 1/2
            = fal.faltante + 1/2 - (pyRound (min avail fal.faltante) : ℚ) by ring]
        rw [Int.floor_sub_int]
      rw [hpot]
      have hpf : potF fal = max 0 ⌊fal.faltante + 1/2⌋ := rfl
      rw [hpf]
      omega

theorem redistOuter_mem (pid : ℤ) :
    ∀ (excs : List ExcEntry) (fals : List FalEntry) (t : TransferProposal),
      t ∈ redistOuter pid excs fals →
        ∃ exc ∈ excs, ∃ q : ℤ, ∃ fsl ∈ fals.map (·.sl), ∃ obj : ℚ, 1 ≤ q ∧
          t = mkTransfer pid exc.sl fsl q (exc.sl.stock_actual - q) obj
  | [], fals, t => by simp [redistOuter]
  | exc :: rest, fals, t => by
    by_cases h : exc.excedente_disponible ≤ 0
    · rw [show redistOuter pid (exc :: rest) fals = redistOuter pid rest fals from by
        simp only [redistOuter, if_pos h]]
      intro ht
      obtain ⟨e, he, q, fsl, hfsl, obj, h1, h2⟩ := redistOuter_mem pid rest fals t ht
      exact ⟨e, List.mem_cons_of_mem _ he, q, fsl, hfsl, obj, h1, h2⟩
    · rw [show redistOuter pid (exc :: rest) fals =
          (redistInner pid exc.sl exc.excedente_disponible fals).2.1 ++
            redistOuter pid rest
              (redistInner pid exc.sl exc.excedente_disponible fals).2.2 from by
        simp only [redistOuter, if_neg h]]
      intro ht
      rcases List.mem_append.mp ht with h2 | h2
      · obtain ⟨q, fal, hfal, h1, heq⟩ :=
          redistInner_mem pid exc.sl fals exc.excedente_disponible t h2
        exact ⟨exc, List.mem_cons_self _ _, q, fal.sl,
          List.mem_map_of_mem (·.sl) hfal, fal.stock_objetivo, h1, heq⟩
      · obtain ⟨e, he, q, fsl, hfsl, obj, h1, heq⟩ :=
          redistOuter_mem pid rest _ t h2
        rw [redistInner_sl pid exc.sl fals exc.excedente_disponible] at hfsl
        exact ⟨e, List.mem_cons_of_mem _ he, q, fsl, hfsl, obj, h1, heq⟩

theorem redistOuter_bound_exc (pid : ℤ) :
    ∀ (excs : List ExcEntry) (fals : List FalEntry),
      sumT (redistOuter pid excs fals)
        ≤ ((excs.map (fun e => max 0 ⌊e.excedente_disponible + 1/2⌋)).sum)
  | [], fals => by simp [redistOuter, sumT]
  | exc :: rest, fals => by
    by_cases h : exc.excedente_disponible ≤ 0
    · rw [show redistOuter pid (exc :: rest) fals = redistOuter pid rest fals from by
        simp only [redistOuter, if_pos h]]
      have ih := redistOuter_bound_exc pid rest fals
      simp only [List.map_cons, List.sum_cons]
      omega
    · rw [show redistOuter pid (exc :: rest) fals =
          (redistInner pid exc.sl exc.excedente_disponible fals).2.1 ++
            redistOuter pid rest
              (redistInner pid exc.sl exc.excedente_disponible fals).2.2 from by
        simp only [redistOuter, if_neg h]]
      rw [sumT_append]
      have h1 := redistInner_bound_int pid exc.sl fals exc.excedente_disponible
      have ih := redistOuter_bound_exc pid rest
        (redistInner pid exc.sl exc.excedente_disponible fals).2.2
      simp only [List.map_cons, List.sum_cons]
      omega

theorem redistOuter_bound_fal (pid : ℤ) :
    ∀ (excs : List ExcEntry) (fals : List FalEntry),
      sumT (redistOuter pid excs fals) ≤ sumPotF fals
  | [], fals => by
    simp only [redistOuter, sumT, List.map_nil, List.sum_nil]
    have : ∀ f ∈ fals.map potF, 0 ≤ f := by
      intro f hf
      rcases List.mem_map.mp hf with ⟨x, _, rfl⟩
      unfold potF
      omega
    exact List.sum_nonneg this
  | exc :: rest, fals => by
    by_cases h : exc.excedente_disponible ≤ 0
    · rw [show redistOuter pid (exc :: rest) fals = redistOuter pid rest fals from by
        simp only [redistOuter, if_pos h]]
      exact redistOuter_bound_fal pid rest fals
    · rw [show redistOuter pid (exc :: rest) fals =
          (redistInner pid exc.sl exc.excedente_disponible fals).2.1 ++
            redistOuter pid rest
              (redistInner pid exc.sl exc.excedente_disponible fals).2.2 from by
        simp only [redistOuter, if_neg h]]
      rw [sumT_append]
      have h1 := redistInner_pot pid exc.sl fals exc.excedente_disponible
      have ih := redistOuter_bound_fal pid rest
        (redistInner pid exc.sl exc.excedente_disponible fals).2.2
      omega

theorem excedentesOf_mem {items : List (String × StockLevel)} {e : ExcEntry}
    (he : e ∈ excedentesOf items) :
    (∃ kv ∈ items, kv.2 = e.sl) ∧ 1 ≤ e.excedente_disponible ∧
      e.excedente_disponible = e.sl.stock_actual - e.sl.stock_ideal := by
  unfold excedentesOf at he
  rcases List.mem_filterMap.mp he with ⟨kv, hkv, hf⟩
  by_cases h1 : kv.2.stock_maximo < kv.2.stock_actual ∧ 0 < kv.2.stock_maximo
  · rw [if_pos h1] at hf
    by_cases h2 : 1 ≤ kv.2.stock_actual - kv.2.stock_ideal
    · rw [if_pos h2] at hf
      have := Option.some_injective _ hf
      subst this
      exact ⟨⟨kv, hkv, rfl⟩, h2, rfl⟩
    · rw [if_neg h2] at hf
      cases hf
  · rw [if_neg h1] at hf
    cases hf

theorem faltantesOf_mem {target_level : String} {items : List (String × StockLevel)}
    {f : FalEntry} (hf : f ∈ faltantesOf target_level items) :
    (∃ kv ∈ items, kv.2 = f.sl) ∧ 1 ≤ f.faltante ∧
      f.sl.stock_actual < f.sl.stock_ideal ∧
      f.faltante = targetOf target_level f.sl - f.sl.stock_actual := by
  unfold faltantesOf at hf
  rcases List.mem_filterMap.mp hf with ⟨kv, hkv, hif⟩
  by_cases h1 : 1 ≤ targetOf target_level kv.2 - kv.2.stock_actual ∧
      kv.2.stock_actual < kv.2.stock_ideal
  · rw [if_pos h1] at hif
    have := Option.some_injective _ hif
    subst this
    exact ⟨⟨kv, hkv, rfl⟩, h1.1, h1.2, rfl⟩
  · rw [if_neg h1] at hif
    cases hif

theorem sortExc_perm (l : List ExcEntry) : (sortExc l).Perm l :=
  List.mergeSort_perm l _

theorem sortFal_perm (l : List FalEntry) : (sortFal l).Perm l :=
  List.mergeSort_perm l _

theorem redistGroup_stamp (pid : ℤ) (items : List (String × StockLevel))
    (tl : String) :
    ∀ t ∈ redistGroup pid items tl, t.product_id = pid := by
  intro t ht
  obtain ⟨exc, hexc, q, fsl, hfsl, obj, h1, heq⟩ :=
    redistOuter_mem pid (sortExc (excedentesOf items)) (sortFal (faltantesOf tl items)) t ht
  rw [heq]
  rfl

theorem redistAll_cons (q : ℤ) (its : List (String × StockLevel))
    (rest : List (ℤ × List (String × StockLevel))) (tl : String) :
    redistAll ((q, its) :: rest) tl = redistGroup q its tl ++ redistAll rest tl := rfl

theorem redistAll_mem (tl : String) :
    ∀ (groups : List (ℤ × List (String × StockLevel))) (t : TransferProposal),
      t ∈ redistAll groups tl → ∃ e ∈ groups, t ∈ redistGroup e.1 e.2 tl
  | [], t => by simp [redistAll]
  | (q, its) :: rest, t => by
    rw [redistAll_cons]
    intro ht
    rcases List.mem_append.mp ht with h | h
    · exact ⟨(q, its), List.mem_cons_self _ _, h⟩
    · obtain ⟨e, he, h2⟩ := redistAll_mem tl rest t h
      exact ⟨e, List.mem_cons_of_mem _ he, h2⟩

theorem redistAll_filter (tl : String) (p : ℤ) (items : List (String × StockLevel)) :
    ∀ (groups : List (ℤ × List (String × StockLevel))),
      (groups.map (·.1)).Nodup → (p, items) ∈ groups →
        (redistAll groups tl).filter (fun t => t.product_id = p) = redistGroup p items tl
  | [], _, hm => absurd hm (by simp)
  | (q, its) :: rest, hnd, hm => by
    simp only [List.map_cons, List.nodup_cons] at hnd
    rw [redistAll_cons, List.filter_append]
    rcases List.mem_cons.mp hm with heq | hmem
    · injection heq with h1 h2
      subst h1
      subst h2
      have hh1 : (redistGroup p items tl).filter (fun t => t.product_id = p) =
          redistGroup p items tl := by
        rw [List.filter_eq_self]
        intro t ht
        simp [redistGroup_stamp p items tl t ht]
      have hh2 : (redistAll rest tl).filter (fun t => t.product_id = p) = [] := by
        rw [List.filter_eq_nil_iff]
        intro t ht
        obtain ⟨e, he, h3⟩ := redistAll_mem tl rest t ht
        have := redistGroup_stamp e.1 e.2 tl t h3
        simp only [decide_eq_true_eq, this]
        intro hqe
        exact hnd.1 (hqe ▸ List.mem_map_of_mem (·.1) he)
      rw [hh1, hh2, List.append_nil]
    · have hq : q ≠ p := by
        intro hq
        exact hnd.1 (hq ▸ List.mem_map_of_mem (·.1) hmem)
      have hh1 : (redistGroup q its tl).filter (fun t => t.product_id = p) = [] := by
        rw [List.filter_eq_nil_iff]
        intro t ht
        have := redistGroup_stamp q its tl t ht
        simp [this, hq]
      rw [hh1, List.nil_append]
      exact redistAll_filter tl p items rest hnd.2 hmem

theorem processGroup_qty_nonneg (pid : ℤ) (items : List (String × StockLevel))
    (costo : ℚ) (tl : String) :
    ∀ t ∈ (processGroup pid items costo tl).1, 0 ≤ t.cantidad_transferir := by
  cases hc : findCentral items with
  | none => simp [processGroup_none pid costo tl hc]
  | some central =>
    rw [processGroup_fst pid costo tl hc]
    exact distLoop_qty_nonneg pid central costo tl (sucursalesOf items) _ (le_max_left 0 _)

/-- Claim C2 (amended): every transfer emitted by peer redistribution moves
at least one unit, and every transfer emitted by central distribution moves a
nonnegative quantity.  (The claim's strict positivity fails for central
distribution: the partial-coverage branch emits `int(disponible_central)`
units, which is 0 when `0 < disponible_central < 1` — see the
counterexample.) -/
theorem claim_C2_amended (levels1 : List StockLevel) (tl1 : String)
    (exDeps1 : List String) (levels2 : List StockLevel) (tl2 : String)
    (exD2 exB2 : List String) (costs2 : ℤ → ℚ) :
    (∀ t ∈ (generate_excess_redistribution levels1 tl1 exDeps1).1,
        1 ≤ t.cantidad_transferir) ∧
      ∀ t ∈ (generate_distribution levels2 tl2 exD2 exB2 costs2).1,
        0 ≤ t.cantidad_transferir := by
  constructor
  · intro t ht
    unfold generate_excess_redistribution at ht
    obtain ⟨e, _, hg⟩ := redistAll_mem tl1 _ t ht
    unfold redistGroup at hg
    obtain ⟨exc, _, q, fsl, _, obj, h1, heq⟩ := redistOuter_mem e.1 _ _ t hg
    rw [heq]
    exact h1
  · intro t ht
    unfold generate_distribution at ht
    obtain ⟨e, _, hg⟩ := distAll_mem_t costs2 tl2 _ t ht
    exact processGroup_qty_nonneg e.1 e.2 (costs2 e.1) tl2 t hg

/-- Claim C3 (amended): for every product, peer redistribution moves at most
`min(total disposable surplus, total deficit)` with each location's amount
first rounded half-up to a whole unit (the exact bound fails for fractional
stock because `round(min(surplus, deficit))` may round up — see the
counterexample); and no transfer has its source equal to its destination. -/
theorem claim_C3_amended (stock_levels : List StockLevel) (target_level : String)
    (excluded_deposits : List String) (p : ℤ) (items : List (String × StockLevel))
    (hm : (p, items) ∈ groupByProduct (stock_levels.filter
        (fun sl => sl.deposito_nombre ∉ excluded_deposits))) :
    sumT ((generate_excess_redistribution stock_levels target_level
          excluded_deposits).1.filter (fun t => t.product_id = p))
        ≤ min (((excedentesOf items).map
              (fun e => ⌊e.excedente_disponible + 1/2⌋)).sum)
            (((faltantesOf target_level items).map (fun f => ⌊f.faltante + 1/2⌋)).sum) ∧
      ∀ t ∈ (generate_excess_redistribution stock_levels target_level
          excluded_deposits).1,
        t.deposit_origen_nombre ≠ t.deposit_destino_nombre := by
  have hinv := groupByProduct_inv (stock_levels.filter
    (fun sl => sl.deposito_nombre ∉ excluded_deposits))
  constructor
  · unfold generate_excess_redistribution
    rw [redistAll_filter target_level p items _ hinv.1 hm]
    unfold redistGroup
    refine le_min ?_ ?_
    · have hb := redistOuter_bound_exc p (sortExc (excedentesOf items))
        (sortFal (faltantesOf target_level items))
      have hperm : ((sortExc (excedentesOf items)).map
            (fun e => max 0 ⌊e.excedente_disponible + 1/2⌋)).sum
          = ((excedentesOf items).map (fun e => max 0 ⌊e.excedente_disponible + 1/2⌋)).sum :=
        ((sortExc_perm (excedentesOf items)).map _).sum_eq
      have hcollapse : ((excedentesOf items).map
            (fun e => max 0 ⌊e.excedente_disponible + 1/2⌋)).sum
          = ((excedentesOf items).map (fun e => ⌊e.excedente_disponible + 1/2⌋)).sum := by
        congr 1
        apply List.map_congr_left
        intro e he
        have h1 := (excedentesOf_mem he).2.1
        have h2 : (1 : ℤ) ≤ ⌊e.excedente_disponible + 1/2⌋ := by
          rw [Int.le_floor]
          push_cast
          linarith
        omega
      rw [hperm, hcollapse] at hb
      exact hb
    · have hb := redistOuter_bound_fal p (sortExc (excedentesOf items))
        (sortFal (faltantesOf target_level items))
      have hperm : sumPotF (sortFal (faltantesOf target_level items))
          = sumPotF (faltantesOf target_level items) := by
        unfold sumPotF
        exact ((sortFal_perm (faltantesOf target_level items)).map _).sum_eq
      have hcollapse : sumPotF (faltantesOf target_level items)
          = ((faltantesOf target_level items).map (fun f => ⌊f.faltante + 1/2⌋)).sum := by
        unfold sumPotF
        congr 1
        apply List.map_congr_left
        intro f hf
        have h1 := (faltantesOf_mem hf).2.1
        have h2 : (1 : ℤ) ≤ ⌊f.faltante + 1/2⌋ := by
          rw [Int.le_floor]
          push_cast
          linarith
        unfold potF
        omega
      rw [hperm, hcollapse] at hb
      exact hb
  · intro t ht
    unfold generate_excess_redistribution at ht
    obtain ⟨e, he, hg⟩ := redistAll_mem target_level _ t ht
    have hitems : itemsInv e.1 e.2 := hinv.2 e he
    unfold redistGroup at hg
    obtain ⟨exc, hexc, q, fsl, hfsl, obj, h1, heq⟩ := redistOuter_mem e.1 _ _ t hg
    have hexc2 : exc ∈ excedentesOf e.2 := ((sortExc_perm (excedentesOf e.2)).mem_iff).mp hexc
    have hfsl2 : fsl ∈ (faltantesOf target_level e.2).map (·.sl) := by
      have hp : ((sortFal (faltantesOf target_level e.2)).map (·.sl)).Perm
          ((faltantesOf target_level e.2).map (·.sl)) :=
        (sortFal_perm (faltantesOf target_level e.2)).map _
      exact hp.mem_iff.mp hfsl
    obtain ⟨fal, hfal, rfl⟩ := List.mem_map.mp hfsl2
    obtain ⟨⟨kvE, hkvE, hkvE2⟩, hE1, hE2⟩ := excedentesOf_mem hexc2
    obtain ⟨⟨kvF, hkvF, hkvF2⟩, hF1, hF2, _⟩ := faltantesOf_mem hfal
    rw [heq]
    have hon : (mkTransfer e.1 exc.sl fal.sl q (exc.sl.stock_actual - q)
        obj).deposit_origen_nombre = exc.sl.deposito_nombre := rfl
    have hdn : (mkTransfer e.1 exc.sl fal.sl q (exc.sl.stock_actual - q)
        obj).deposit_destino_nombre = fal.sl.deposito_nombre := rfl
    rw [hon, hdn]
    intro hname
    have hkeyE := (hitems.2 kvE hkvE).1
    have hkeyF := (hitems.2 kvF hkvF).1
    have hkeys : kvE.1 = kvF.1 := by
      rw [hkeyE, hkeyF, hkvE2, hkvF2, hname]
    have hkv : kvE = kvF :=
      List.inj_on_of_nodup_map hitems.1 hkvE hkvF hkeys
    have hsl : exc.sl = fal.sl := by
      rw [← hkvE2, ← hkvF2, hkv]
    rw [hsl] at hE2
    rw [hE2] at hE1
    linarith

/-- Central row with fractional pool `5.3 - 5 = 0.3` for the C2
counterexample. -/
def cxC2central : StockLevel :=
  { product_id := 1, deposit_id := 9, deposito_nombre := "DEPOSITO RUTA 9",
    stock_actual := 53/10, stock_minimo := 5, stock_ideal := 6, stock_maximo := 8 }

/-- Peer with ideal-target deficit 5 for the C2 counterexample. -/
def cxC2s : StockLevel :=
  { product_id := 1, deposit_id := 2, deposito_nombre := "SUCURSAL A",
    stock_actual := 0, stock_minimo := 3, stock_ideal := 5, stock_maximo := 10 }

/-- Claim C2 counterexample: with a central pool of `0.3` and a peer deficit
of 5, the partial-coverage branch emits a transfer of `int(0.3) = 0` units —
a `TransferProposal` whose quantity is not strictly positive. -/
theorem claim_C2_counterexample :
    ((generate_distribution [cxC2central, cxC2s] "ideal" [] [] (fun _ => 0)).1.map
      (·.cantidad_transferir)) = [0] := by
  norm_num [generate_distribution, filterLevels, groupByProduct, groupAdd, upsert,
    distAll, processGroup, findCentral, sucursalesOf, distLoop, stepSucursal,
    targetOf, faltanteInt, pyRound, pyTrunc, mkTransfer, mkNeed,
    CENTRAL_DEPOSIT_NAME, cxC2central, cxC2s, List.foldl, List.filter,
    (show ¬ "SUCURSAL A" = "DEPOSITO RUTA 9" by decide),
    (show ¬ "DEPOSITO RUTA 9" = "SUCURSAL A" by decide),
    (show ¬ "ideal" = "minimo" by decide),
    (show ¬ "ideal" = "maximo" by decide)]

/-- Surplus row for the C3 counterexample: `stock_actual = 2.5`,
`stock_ideal = stock_maximo = 1`, disposable surplus `1.5`. -/
def cxC3x : StockLevel :=
  { product_id := 1, deposit_id := 1, deposito_nombre := "SUC X",
    stock_actual := 5/2, stock_minimo := 1/2, stock_ideal := 1, stock_maximo := 1 }

/-- Deficit row for the C3 counterexample: needs 10 at the ideal target. -/
def cxC3y : StockLevel :=
  { product_id := 1, deposit_id := 2, deposito_nombre := "SUC Y",
    stock_actual := 0, stock_minimo := 5, stock_ideal := 10, stock_maximo := 20 }

/-- Claim C3 counterexample: total surplus is `1.5` and total deficit `10`,
yet the single emitted transfer moves `round(min(1.5, 10)) = 2` units —
strictly more than `min(total surplus, total deficit) = 1.5`. -/
theorem claim_C3_counterexample :
    ((generate_excess_redistribution [cxC3x, cxC3y] "ideal" []).1.map
        (·.cantidad_transferir) = [2]) ∧
      (((excedentesOf [("SUC X", cxC3x), ("SUC Y", cxC3y)]).map
        (·.excedente_disponible)).sum = 3/2) ∧
      (((faltantesOf "ideal" [("SUC X", cxC3x), ("SUC Y", cxC3y)]).map
        (·.faltante)).sum = 10) ∧
      ¬ ((2 : ℚ) ≤ min (3/2) 10) := by
  refine ⟨?_, ?_, ?_, by norm_num⟩
  · norm_num [generate_excess_redistribution, groupByProduct, groupAdd, upsert,
      redistAll, redistGroup, redistOuter, redistInner, sortExc, sortFal,
      excedentesOf, faltantesOf, List.mergeSort, List.filterMap, targetOf,
      pyRound, mkTransfer, cxC3x, cxC3y, List.foldl, List.filter,
      (show ¬ "SUC X" = "SUC Y" by decide),
      (show ¬ "SUC Y" = "SUC X" by decide),
      (show ¬ "ideal" = "minimo" by decide),
      (show ¬ "ideal" = "maximo" by decide)]
  · norm_num [excedentesOf, List.filterMap, cxC3x, cxC3y]
  · norm_num [faltantesOf, List.filterMap, targetOf, cxC3x, cxC3y,
      (show ¬ "ideal" = "minimo" by decide),
      (show ¬ "ideal" = "maximo" by decide)]

/-- Surplus row for the C2/C3 witnesses: disposable surplus `10 - 2 = 8`. -/
def wC2rx : StockLevel :=
  { product_id := 1, deposit_id := 1, deposito_nombre := "SUC X",
    stock_actual := 10, stock_minimo := 1, stock_ideal := 2, stock_maximo := 3 }

/-- Deficit row for the C2/C3 witnesses: needs 5 at the ideal target. -/
def wC2ry : StockLevel :=
  { product_id := 1, deposit_id := 2, deposito_nombre := "SUC Y",
    stock_actual := 0, stock_minimo := 2, stock_ideal := 5, stock_maximo := 6 }

/-- The transfer of 5 units the witness redistribution input produces. -/
def wC2rt : TransferProposal :=
  { product_id := 1, deposit_origen_id := 1, deposit_origen_nombre := "SUC X",
    deposit_destino_id := 2, deposit_destino_nombre := "SUC Y",
    cantidad_transferir := 5, stock_origen_antes := 10, stock_origen_despues := 5,
    stock_destino_antes := 0, stock_destino_despues := 5, stock_minimo_destino := 2,
    stock_ideal_destino := 5, stock_objetivo_destino := 5 }

/-- Central row for the C2 witness (pool 70). -/
def wC2cc : StockLevel :=
  { product_id := 1, deposit_id := 9, deposito_nombre := "DEPOSITO RUTA 9",
    stock_actual := 120, stock_minimo := 50, stock_ideal := 60, stock_maximo := 80 }

/-- Peer for the C2 witness: ideal-target deficit 40. -/
def wC2ca : StockLevel :=
  { product_id := 1, deposit_id := 2, deposito_nombre := "SUCURSAL A",
    stock_actual := 0, stock_minimo := 20, stock_ideal := 40, stock_maximo := 60 }

/-- The transfer of 40 units the witness central input produces. -/
def wC2ct : TransferProposal :=
  { product_id := 1, deposit_origen_id := 9, deposit_origen_nombre := "DEPOSITO RUTA 9",
    deposit_destino_id := 2, deposit_destino_nombre := "SUCURSAL A",
    cantidad_transferir := 40, stock_origen_antes := 120, stock_origen_despues := 80,
    stock_destino_antes := 0, stock_destino_despues := 40, stock_minimo_destino := 20,
    stock_ideal_destino := 40, stock_objetivo_destino := 40 }

theorem claim_C2_amended_witness :
    (wC2rt ∈ (generate_excess_redistribution [wC2rx, wC2ry] "ideal" []).1 ∧
        1 ≤ wC2rt.cantidad_transferir) ∧
      (wC2ct ∈ (generate_distribution [wC2cc, wC2ca] "ideal" [] [] (fun _ => 0)).1 ∧
        0 ≤ wC2ct.cantidad_transferir) := by
  have h1 : wC2rt ∈ (generate_excess_redistribution [wC2rx, wC2ry] "ideal" []).1 := by
    norm_num [generate_excess_redistribution, groupByProduct, groupAdd, upsert,
      redistAll, redistGroup, redistOuter, redistInner, sortExc, sortFal,
      excedentesOf, faltantesOf, List.mergeSort, List.filterMap, targetOf,
      pyRound, mkTransfer, wC2rx, wC2ry, wC2rt, List.foldl, List.filter,
      (show ¬ "SUC X" = "SUC Y" by decide),
      (show ¬ "SUC Y" = "SUC X" by decide),
      (show ¬ "ideal" = "minimo" by decide),
      (show ¬ "ideal" = "maximo" by decide)]
  have h2 : wC2ct ∈ (generate_distribution [wC2cc, wC2ca] "ideal" [] [] (fun _ => 0)).1 := by
    norm_num [generate_distribution, filterLevels, groupByProduct, groupAdd, upsert,
      distAll, processGroup, findCentral, sucursalesOf, distLoop, stepSucursal,
      targetOf, faltanteInt, pyRound, pyTrunc, mkTransfer, mkNeed,
      CENTRAL_DEPOSIT_NAME, wC2cc, wC2ca, wC2ct, List.foldl, List.filter,
      (show ¬ "SUCURSAL A" = "DEPOSITO RUTA 9" by decide),
      (show ¬ "DEPOSITO RUTA 9" = "SUCURSAL A" by decide),
      (show ¬ "ideal" = "minimo" by decide),
      (show ¬ "ideal" = "maximo" by decide)]
  exact ⟨⟨h1, (claim_C2_amended [wC2rx, wC2ry] "ideal" [] [wC2cc, wC2ca] "ideal" [] []
      (fun _ => 0)).1 wC2rt h1⟩,
    ⟨h2, (claim_C2_amended [wC2rx, wC2ry] "ideal" [] [wC2cc, wC2ca] "ideal" [] []
      (fun _ => 0)).2 wC2ct h2⟩⟩

theorem claim_C3_amended_witness :
    (1, [("SUC X", wC2rx), ("SUC Y", wC2ry)]) ∈
        groupByProduct ([wC2rx, wC2ry].filter (fun sl => sl.deposito_nombre ∉ ([] : List String))) ∧
      (sumT ((generate_excess_redistribution [wC2rx, wC2ry] "ideal" []).1.filter
          (fun t => t.product_id = 1))
        ≤ min (((excedentesOf [("SUC X", wC2rx), ("SUC Y", wC2ry)]).map
              (fun e => ⌊e.excedente_disponible + 1/2⌋)).sum)
            (((faltantesOf "ideal" [("SUC X", wC2rx), ("SUC Y", wC2ry)]).map
              (fun f => ⌊f.faltante + 1/2⌋)).sum) ∧
        ∀ t ∈ (generate_excess_redistribution [wC2rx, wC2ry] "ideal" []).1,
          t.deposit_origen_nombre ≠ t.deposit_destino_nombre) := by
  have h1 : (1, [("SUC X", wC2rx), ("SUC Y", wC2ry)]) ∈
      groupByProduct ([wC2rx, wC2ry].filter (fun sl => sl.deposito_nombre ∉ ([] : List String))) := by
    norm_num [groupByProduct, groupAdd, upsert, List.foldl, List.filter,
      wC2rx, wC2ry,
      (show ¬ "SUC X" = "SUC Y" by decide),
      (show ¬ "SUC Y" = "SUC X" by decide)]
  exact ⟨h1, claim_C3_amended [wC2rx, wC2ry] "ideal" [] 1 _ h1⟩

/-- Central row for the C9 counterexample: large pool, minimum 0. -/
def cxC9c : StockLevel :=
  { product_id := 1, deposit_id := 9, deposito_nombre := "DEPOSITO RUTA 9",
    stock_actual := 100, stock_minimo := 0, stock_ideal := 0, stock_maximo := 0 }

/-- Suppressed peer with stock `-0.4` for the C9 counterexample. -/
def cxC9s : StockLevel :=
  { product_id := 1, deposit_id := 2, deposito_nombre := "SUCURSAL A",
    stock_actual := -2/5, stock_minimo := 0, stock_ideal := 0, stock_maximo := 0 }

/-- Suppressed peer with stock `-2.6` for the C9 counterexample. -/
def cxC9s2 : StockLevel :=
  { product_id := 1, deposit_id := 2, deposito_nombre := "SUCURSAL A",
    stock_actual := -13/5, stock_minimo := 0, stock_ideal := 0, stock_maximo := 0 }

/-- Claim C9 counterexample: a suppressed peer with stock `-0.4` receives no
transfer and no purchase need at all (its deficit rounds to 0), and a
suppressed peer with stock `-2.6` receives 3 units, ending at `0.4`, not at
exactly 0. -/
theorem claim_C9_counterexample :
    (generate_distribution [cxC9c, cxC9s] "ideal" [] [] (fun _ => 0) = ([], [])) ∧
      ((generate_distribution [cxC9c, cxC9s2] "ideal" [] [] (fun _ => 0)).1.map
        (fun t => (t.cantidad_transferir, t.stock_destino_despues)) = [(3, 2/5)]) ∧
      (generate_distribution [cxC9c, cxC9s2] "ideal" [] [] (fun _ => 0)).2 = [] := by
  refine ⟨?_, ?_, ?_⟩ <;>
    norm_num [generate_distribution, filterLevels, groupByProduct, groupAdd, upsert,
      distAll, processGroup, findCentral, sucursalesOf, distLoop, stepSucursal,
      targetOf, faltanteInt, pyRound, pyTrunc, mkTransfer, mkNeed,
      CENTRAL_DEPOSIT_NAME, cxC9c, cxC9s, cxC9s2, List.foldl, List.filter,
      (show ¬ "SUCURSAL A" = "DEPOSITO RUTA 9" by decide),
      (show ¬ "DEPOSITO RUTA 9" = "SUCURSAL A" by decide),
      (show ¬ "ideal" = "minimo" by decide),
      (show ¬ "ideal" = "maximo" by decide)]

/-!
## Stock level calculator (`app/services/stock_calculator.py`)

The per-row computation of `calculate_all_stock_levels` (lines 174-239):
suppression by the 365-day sales threshold, the three targets, the status
classification on the unrounded values, and 2-decimal rounding for storage.
-/

/-- Dataclass `ForecastResult` of `demand_forecaster.py`. -/
structure ForecastResult where
  product_id : ℤ := 0
  deposit_id : ℤ := 0
  demanda_diaria : ℚ := 0
  metodo_usado : String := ""
  confianza : ℚ := 0
  tendencia : String := ""
  ventas_30_dias : ℚ := 0
  ventas_60_dias : ℚ := 0
  ventas_90_dias : ℚ := 0
  ventas_365_dias : ℚ := 0
  monto_90_dias : ℚ := 0

/-- `stock_minimo` before rounding: 0 under the minimum-sales suppression
rule, else `demanda_diaria * dias_stock`. -/
def stock_minimo_raw (ventas_365 demanda : ℚ) (dias_stock umbral : ℤ) : ℚ :=
  if ventas_365 < (umbral : ℚ) then 0 else demanda * dias_stock

/-- `stock_ideal` before rounding (`stock_minimo * factor_ideal`). -/
def stock_ideal_raw (ventas_365 demanda : ℚ) (dias_stock umbral : ℤ)
    (factor_ideal : ℚ) : ℚ :=
  if ventas_365 < (umbral : ℚ) then 0 else demanda * dias_stock * factor_ideal

/-- `stock_maximo` before rounding (`stock_minimo * factor_maximo`). -/
def stock_maximo_raw (ventas_365 demanda : ℚ) (dias_stock umbral : ℤ)
    (factor_maximo : ℚ) : ℚ :=
  if ventas_365 < (umbral : ℚ) then 0 else demanda * dias_stock * factor_maximo

/-- The status chain of lines 199-212, evaluated on the unrounded values. -/
def estadoOf (stock_minimo stock_maximo stock_actual : ℚ) : String :=
  if stock_minimo = 0 then
    if stock_actual ≤ 0 then "sin_stock" else "ok"
  else if stock_actual ≤ 0 then "sin_stock"
  else if stock_actual < stock_minimo then "bajo_minimo"
  else if stock_maximo < stock_actual then "excedente"
  else "ok"

/-- One iteration of the row loop of `calculate_all_stock_levels`: build the
`StockLevel` record from the forecast, the resolved configuration and the
stock snapshot.  The stored targets are rounded to 2 decimal places; the
status is computed on the unrounded values, as in the source. -/
def calculate_stock_level (product_id deposit_id : ℤ)
    (cod_item nombre marca rubro subrubro deposito_nombre : String)
    (forecast : ForecastResult) (dias_stock umbral_minimo : ℤ)
    (factor_ideal factor_maximo : ℚ)
    (stock_disponible stock_real stock_reservado : ℚ) : StockLevel :=
  { product_id := product_id
    deposit_id := deposit_id
    cod_item := cod_item
    producto_nombre := nombre
    marca := marca
    rubro := rubro
    subrubro := subrubro
    deposito_nombre := deposito_nombre
    stock_actual := stock_disponible
    stock_real := stock_real
    stock_reservado := stock_reservado
    stock_minimo := round2 (stock_minimo_raw forecast.ventas_365_dias
      forecast.demanda_diaria dias_stock umbral_minimo)
    stock_ideal := round2 (stock_ideal_raw forecast.ventas_365_dias
      forecast.demanda_diaria dias_stock umbral_minimo factor_ideal)
    stock_maximo := round2 (stock_maximo_raw forecast.ventas_365_dias
      forecast.demanda_diaria dias_stock umbral_minimo factor_maximo)
    demanda_diaria := forecast.demanda_diaria
    dias_cobertura := dias_stock
    metodo_forecast := forecast.metodo_usado
    tendencia := forecast.tendencia
    ventas_30_dias := forecast.ventas_30_dias
    ventas_60_dias := forecast.ventas_60_dias
    ventas_90_dias := forecast.ventas_90_dias
    ventas_365_dias := forecast.ventas_365_dias
    monto_90_dias := forecast.monto_90_dias
    estado := estadoOf (stock_minimo_raw forecast.ventas_365_dias
        forecast.demanda_diaria dias_stock umbral_minimo)
      (stock_maximo_raw forecast.ventas_365_dias forecast.demanda_diaria
        dias_stock umbral_minimo factor_maximo)
      stock_disponible }

/-- Claim C5 (amended): with `1 ≤ ideal_factor ≤ max_factor`, if the
minimum-sales suppression rule fires then all three stored targets are 0,
and whenever the stored `stock_minimo` is positive the stored targets are
ordered `stock_minimo ≤ stock_ideal ≤ stock_maximo`.  (As stated the claim
fails twice: 2-decimal rounding can store `stock_minimo = 0` with
`stock_ideal > 0`, and without `ideal_factor ≤ max_factor` the order
`stock_ideal ≤ stock_maximo` fails — see the counterexample.) -/
theorem claim_C5_amended (product_id deposit_id : ℤ)
    (cod_item nombre marca rubro subrubro deposito_nombre : String)
    (forecast : ForecastResult) (dias_stock umbral_minimo : ℤ)
    (factor_ideal factor_maximo : ℚ)
    (stock_disponible stock_real stock_reservado : ℚ)
    (hfi : 1 ≤ factor_ideal) (hfm : factor_ideal ≤ factor_maximo) :
    (forecast.ventas_365_dias < (umbral_minimo : ℚ) →
      (calculate_stock_level product_id deposit_id cod_item nombre marca rubro
          subrubro deposito_nombre forecast dias_stock umbral_minimo factor_ideal
          factor_maximo stock_disponible stock_real stock_reservado).stock_minimo = 0 ∧
        (calculate_stock_level product_id deposit_id cod_item nombre marca rubro
          subrubro deposito_nombre forecast dias_stock umbral_minimo factor_ideal
          factor_maximo stock_disponible stock_real stock_reservado).stock_ideal = 0 ∧
        (calculate_stock_level product_id deposit_id cod_item nombre marca rubro
          subrubro deposito_nombre forecast dias_stock umbral_minimo factor_ideal
          factor_maximo stock_disponible stock_real stock_reservado).stock_maximo = 0) ∧
    (0 < (calculate_stock_level product_id deposit_id cod_item nombre marca rubro
          subrubro deposito_nombre forecast dias_stock umbral_minimo factor_ideal
          factor_maximo stock_disponible stock_real stock_reservado).stock_minimo →
      (calculate_stock_level product_id deposit_id cod_item nombre marca rubro
          subrubro deposito_nombre forecast dias_stock umbral_minimo factor_ideal
          factor_maximo stock_disponible stock_real stock_reservado).stock_minimo ≤
        (calculate_stock_level product_id deposit_id cod_item nombre marca rubro
          subrubro deposito_nombre forecast dias_stock umbral_minimo factor_ideal
          factor_maximo stock_disponible stock_real stock_reservado).stock_ideal ∧
      (calculate_stock_level product_id deposit_id cod_item nombre marca rubro
          subrubro deposito_nombre forecast dias_stock umbral_minimo factor_ideal
          factor_maximo stock_disponible stock_real stock_reservado).stock_ideal ≤
        (calculate_stock_level product_id deposit_id cod_item nombre marca rubro
          subrubro deposito_nombre forecast dias_stock umbral_minimo factor_ideal
          factor_maximo stock_disponible stock_real stock_reservado).stock_maximo) := by
  constructor
  · intro hsup
    unfold calculate_stock_level
    simp only
    unfold stock_minimo_raw stock_ideal_raw stock_maximo_raw
    rw [if_pos hsup, if_pos hsup, if_pos hsup]
    exact ⟨round2_zero, round2_zero, round2_zero⟩
  · intro hpos
    unfold calculate_stock_level at hpos ⊢
    simp only at hpos ⊢
    by_cases hsup : forecast.ventas_365_dias < (umbral_minimo : ℚ)
    · exfalso
      unfold stock_minimo_raw at hpos
      rw [if_pos hsup, round2_zero] at hpos
      exact lt_irrefl 0 hpos
    · have hraw : 0 < stock_minimo_raw forecast.ventas_365_dias forecast.demanda_diaria
          dias_stock umbral_minimo := pos_of_round2_pos hpos
      unfold stock_minimo_raw at hraw
      rw [if_neg hsup] at hraw
      constructor
      · apply round2_mono
        unfold stock_minimo_raw stock_ideal_raw
        rw [if_neg hsup, if_neg hsup]
        nlinarith
      · apply round2_mono
        unfold stock_ideal_raw stock_maximo_raw
        rw [if_neg hsup, if_neg hsup]
        nlinarith

/-- Forecast input for part (a) of the C5 counterexample:
`demanda * dias = 0.004`. -/
def cxC5f : ForecastResult :=
  { product_id := 1, deposit_id := 1, demanda_diaria := 1/250, metodo_usado := "mediana",
    confianza := 7/10, tendencia := "estable", ventas_365_dias := 100 }

/-- Forecast input for part (b) of the C5 counterexample:
`demanda * dias = 10`. -/
def cxC5g : ForecastResult :=
  { product_id := 1, deposit_id := 1, demanda_diaria := 10, metodo_usado := "mediana",
    confianza := 7/10, tendencia := "estable", ventas_365_dias := 100 }

/-- Claim C5 counterexample.  (a) With `demanda * dias = 0.004` and factors
`2`/`4` (both `>= 1`), the stored values are `stock_minimo = 0` but
`stock_ideal = 0.01 ≠ 0`: rounding breaks the suppression direction.
(b) With factors `ideal = 3, max = 2` (both `>= 1`), the stored values are
`10 / 30 / 20`, violating `stock_ideal ≤ stock_maximo`. -/
theorem claim_C5_counterexample :
    ((calculate_stock_level 1 1 "" "" "" "" "" "" cxC5f 1 5 2 4 0 0 0).stock_minimo = 0 ∧
      (calculate_stock_level 1 1 "" "" "" "" "" "" cxC5f 1 5 2 4 0 0 0).stock_ideal = 1/100) ∧
    ((calculate_stock_level 1 1 "" "" "" "" "" "" cxC5g 1 5 3 2 0 0 0).stock_minimo = 10 ∧
      (calculate_stock_level 1 1 "" "" "" "" "" "" cxC5g 1 5 3 2 0 0 0).stock_ideal = 30 ∧
      (calculate_stock_level 1 1 "" "" "" "" "" "" cxC5g 1 5 3 2 0 0 0).stock_maximo = 20) ∧
    ¬ ((30 : ℚ) ≤ 20) := by
  refine ⟨⟨?_, ?_⟩, ⟨?_, ?_, ?_⟩, by norm_num⟩ <;>
    norm_num [calculate_stock_level, stock_minimo_raw, stock_ideal_raw,
      stock_maximo_raw, round2, pyRound, cxC5f, cxC5g]

/-- Forecast input for the C5 witness: `demanda * dias = 20`, not
suppressed. -/
def wC5f : ForecastResult :=
  { product_id := 1, deposit_id := 1, demanda_diaria := 10, metodo_usado := "mediana",
    confianza := 7/10, tendencia := "estable", ventas_365_dias := 100 }

theorem claim_C5_amended_witness :
    (1 : ℚ) ≤ 2 ∧ (2 : ℚ) ≤ 4 ∧
      (calculate_stock_level 1 1 "" "" "" "" "" "" wC5f 2 5 2 4 0 0 0).stock_minimo ≤
        (calculate_stock_level 1 1 "" "" "" "" "" "" wC5f 2 5 2 4 0 0 0).stock_ideal ∧
      (calculate_stock_level 1 1 "" "" "" "" "" "" wC5f 2 5 2 4 0 0 0).stock_ideal ≤
        (calculate_stock_level 1 1 "" "" "" "" "" "" wC5f 2 5 2 4 0 0 0).stock_maximo := by
  refine ⟨by norm_num, by norm_num, ?_⟩
  exact (claim_C5_amended 1 1 "" "" "" "" "" "" wC5f 2 5 2 4 0 0 0
      (by norm_num) (by norm_num)).2
    (by norm_num [calculate_stock_level, stock_minimo_raw, round2, pyRound, wC5f])

/-!
## Demand forecaster (`app/services/demand_forecaster.py`)

Sales rows carry `(fecha, cantidad, monto)`; dates are modelled as day
numbers (ℤ).  `dailyTotals` is the `groupby(fecha)['cantidad'].sum()` series
(the order of the groups is irrelevant to every use below: the median sorts
and the counts/sums are permutation-invariant).
-/

/-- One row of the `sales_history` DataFrame. -/
structure SaleRow where
  fecha : ℤ
  cantidad : ℚ
  monto : ℚ
deriving DecidableEq

/-- `DemandForecaster._promedio_simple`: total quantity over
`max(1, dias)`. -/
def promedio_simple (df : List SaleRow) (dias : ℤ) : ℚ :=
  (df.map (·.cantidad)).sum / ((max 1 dias : ℤ) : ℚ)

/-- The per-day quantity sums `df.groupby(fecha)['cantidad'].sum()`. -/
def dailyTotals (df : List SaleRow) : List ℚ :=
  ((df.map (·.fecha)).dedup).map
    (fun d => ((df.filter (fun r => r.fecha = d)).map (·.cantidad)).sum)

/-- `pandas.Series.median`: middle of the sorted values, or the mean of the
two middle values for an even count. -/
def medianQ (l : List ℚ) : ℚ :=
  if (l.mergeSort (fun a b => a ≤ b)).length = 0 then 0
  else if (l.mergeSort (fun a b => a ≤ b)).length % 2 = 1 then
    (l.mergeSort (fun a b => a ≤ b)).getD ((l.mergeSort (fun a b => a ≤ b)).length / 2) 0
  else
    ((l.mergeSort (fun a b => a ≤ b)).getD ((l.mergeSort (fun a b => a ≤ b)).length / 2 - 1) 0
      + (l.mergeSort (fun a b => a ≤ b)).getD ((l.mergeSort (fun a b => a ≤ b)).length / 2) 0) / 2

/-- `DemandForecaster._mediana_ajustada`: median of the daily sums times the
proportion of sale-days in the period. -/
def mediana_ajustada (df : List SaleRow) (dias : ℤ) : ℚ :=
  if dailyTotals df = [] then 0
  else medianQ (dailyTotals df) * (((dailyTotals df).length : ℚ) / ((max 1 dias : ℤ) : ℚ))

theorem mergeSortQ_sorted (l : List ℚ) :
    (l.mergeSort (fun a b => a ≤ b)).Sorted (· ≤ ·) := by
  have h := @List.sorted_mergeSort ℚ (fun a b => decide (a ≤ b))
    (by intro a b c hab hbc; simp only [decide_eq_true_eq] at *; exact le_trans hab hbc)
    (by intro a b; simp only [Bool.or_eq_true, decide_eq_true_eq]; exact le_total a b) l
  rw [List.Sorted]
  refine h.imp ?_
  intro a b hab
  exact of_decide_eq_true hab

theorem sum_if_mem (c : ℚ) : ∀ (ds : List ℤ) (x : ℤ), ds.Nodup → x ∈ ds →
    (ds.map (fun d => if x = d then c else 0)).sum = c
  | [], x, _, hx => absurd hx (by simp)
  | d0 :: rest, x, hnd, hx => by
    simp only [List.map_cons, List.sum_cons]
    simp only [List.nodup_cons] at hnd
    by_cases h : x = d0
    · subst h
      have hz : (rest.map (fun d => if x = d then c else 0)).sum = 0 := by
        apply List.sum_eq_zero
        intro q hq
        rcases List.mem_map.mp hq with ⟨d, hd, rfl⟩
        rw [if_neg]
        intro he
        exact hnd.1 (he ▸ hd)
      rw [if_pos rfl, hz, add_zero]
    · rcases List.mem_cons.mp hx with rfl | hx2
      · exact absurd rfl h
      · rw [if_neg h, zero_add]
        exact sum_if_mem c rest x hnd.2 hx2

theorem sum_filter_dates (ds : List ℤ) (hnd : ds.Nodup) :
    ∀ (df : List SaleRow), (∀ r ∈ df, r.fecha ∈ ds) →
      (ds.map (fun d => ((df.filter (fun r => r.fecha = d)).map (·.cantidad)).sum)).sum
        = (df.map (·.cantidad)).sum
  | [] => by
    intro _
    simp
  | r :: rest => by
    intro hcov
    have hr : r.fecha ∈ ds := hcov r (List.mem_cons_self _ _)
    have hrest : ∀ x ∈ rest, x.fecha ∈ ds := fun x hx => hcov x (List.mem_cons_of_mem _ hx)
    have ih := sum_filter_dates ds hnd rest hrest
    have hpoint : ∀ d : ℤ,
        (((r :: rest).filter (fun x => x.fecha = d)).map (·.cantidad)).sum
          = (if r.fecha = d then r.cantidad else 0)
            + ((rest.filter (fun x => x.fecha = d)).map (·.cantidad)).sum := by
      intro d
      by_cases h : r.fecha = d <;> simp [List.filter_cons, h]
    calc (ds.map (fun d => (((r :: rest).filter (fun x => x.fecha = d)).map
            (·.cantidad)).sum)).sum
        = (ds.map (fun d => (if r.fecha = d then r.cantidad else 0)
            + ((rest.filter (fun x => x.fecha = d)).map (·.cantidad)).sum)).sum := by
          congr 1
          exact List.map_congr_left (fun d _ => hpoint d)
      _ = (ds.map (fun d => if r.fecha = d then r.cantidad else 0)).sum
            + (ds.map (fun d => ((rest.filter (fun x => x.fecha = d)).map
              (·.cantidad)).sum)).sum := by
          rw [← List.sum_map_add]
      _ = r.cantidad + (rest.map (·.cantidad)).sum := by
          rw [sum_if_mem r.cantidad ds r.fecha hnd hr, ih]
      _ = ((r :: rest).map (·.cantidad)).sum := by simp

theorem dailyTotals_sum (df : List SaleRow) :
    (dailyTotals df).sum = (df.map (·.cantidad)).sum := by
  unfold dailyTotals
  exact sum_filter_dates ((df.map (fun r => r.fecha)).dedup)
    (List.nodup_dedup (df.map (fun r => r.fecha))) df
    (fun r hr => List.mem_dedup.mpr (List.mem_map_of_mem (fun x => x.fecha) hr))

/-- Claim C7: outlier robustness of the default estimator.  For any series
whose per-day sums are exactly the multiset `{1,1,1,1,2,3,6}`, the median
estimate is `1 * 7/dias` while the simple average is `15/dias`, and the two
differ by more than 50% of either. -/
theorem claim_C7_outlier (df : List SaleRow) (dias : ℤ)
    (hperm : (dailyTotals df).Perm [1, 1, 1, 1, 2, 3, 6]) :
    mediana_ajustada df dias = 7 / ((max 1 dias : ℤ) : ℚ) ∧
      promedio_simple df dias = 15 / ((max 1 dias : ℤ) : ℚ) ∧
      (1/2) * promedio_simple df dias < promedio_simple df dias - mediana_ajustada df dias ∧
      (1/2) * mediana_ajustada df dias < promedio_simple df dias - mediana_ajustada df dias := by
  have hlen : (dailyTotals df).length = 7 := by
    rw [hperm.length_eq]
    rfl
  have hne : dailyTotals df ≠ [] := by
    intro h
    rw [h] at hlen
    simp at hlen
  have hsorted : (dailyTotals df).mergeSort (fun a b => a ≤ b) = [1, 1, 1, 1, 2, 3, 6] := by
    apply List.eq_of_perm_of_sorted ((List.mergeSort_perm _ _).trans hperm)
      (mergeSortQ_sorted _)
    norm_num [List.Sorted]
  have hmed : medianQ (dailyTotals df) = 1 := by
    unfold medianQ
    rw [hsorted]
    norm_num
  have hsum : (df.map (·.cantidad)).sum = 15 := by
    rw [← dailyTotals_sum, hperm.sum_eq]
    norm_num
  have hd : (0 : ℚ) < ((max 1 dias : ℤ) : ℚ) := by
    have h1 : (1 : ℤ) ≤ max 1 dias := le_max_left 1 dias
    have : (0 : ℤ) < max 1 dias := by omega
    exact_mod_cast this
  have he1 : mediana_ajustada df dias = 7 / ((max 1 dias : ℤ) : ℚ) := by
    unfold mediana_ajustada
    rw [if_neg hne, hmed, hlen]
    push_cast
    ring
  have he2 : promedio_simple df dias = 15 / ((max 1 dias : ℤ) : ℚ) := by
    unfold promedio_simple
    rw [hsum]
  have key : ∀ a b : ℚ, a < b →
      a / ((max 1 dias : ℤ) : ℚ) < b / ((max 1 dias : ℤ) : ℚ) := by
    intro a b h
    rw [div_lt_div_iff hd hd]
    exact mul_lt_mul_of_pos_right h hd
  refine ⟨he1, he2, ?_, ?_⟩ <;> rw [he1, he2, div_sub_div_same]
  · have hrw : (1/2 : ℚ) * (15 / ((max 1 dias : ℤ) : ℚ))
        = (15/2) / ((max 1 dias : ℤ) : ℚ) := by ring
    rw [hrw, show (15 : ℚ) - 7 = 8 by norm_num]
    exact key _ _ (by norm_num)
  · have hrw : (1/2 : ℚ) * (7 / ((max 1 dias : ℤ) : ℚ))
        = (7/2) / ((max 1 dias : ℤ) : ℚ) := by ring
    rw [hrw, show (15 : ℚ) - 7 = 8 by norm_num]
    exact key _ _ (by norm_num)

/-- Concrete series for the C7 witness: seven sale-days with quantities
`1,1,1,1,2,3,6`. -/
def wC7df : List SaleRow :=
  [⟨0, 1, 10⟩, ⟨10, 1, 10⟩, ⟨20, 1, 10⟩, ⟨30, 1, 10⟩,
   ⟨40, 2, 20⟩, ⟨50, 3, 30⟩, ⟨60, 6, 60⟩]

theorem claim_C7_outlier_witness :
    (dailyTotals wC7df).Perm [1, 1, 1, 1, 2, 3, 6] ∧
      (mediana_ajustada wC7df 365 = 7 / ((max 1 365 : ℤ) : ℚ) ∧
        promedio_simple wC7df 365 = 15 / ((max 1 365 : ℤ) : ℚ) ∧
        (1/2) * promedio_simple wC7df 365
          < promedio_simple wC7df 365 - mediana_ajustada wC7df 365 ∧
        (1/2) * mediana_ajustada wC7df 365
          < promedio_simple wC7df 365 - mediana_ajustada wC7df 365) := by
  have hd : (wC7df.map (fun r => r.fecha)).dedup = [0, 10, 20, 30, 40, 50, 60] := by
    decide
  have hp : dailyTotals wC7df = [1, 1, 1, 1, 2, 3, 6] := by
    unfold dailyTotals
    rw [hd]
    norm_num [wC7df, List.filter]
  have hperm : (dailyTotals wC7df).Perm [1, 1, 1, 1, 2, 3, 6] := by
    rw [hp]
  exact ⟨hperm, claim_C7_outlier wC7df 365 hperm⟩

/-!
## `DemandForecaster.calculate_demand` (claim C8)
-/

/-- `df['fecha'].max()` (0 for an empty frame; every use below is guarded by
an emptiness check, as in the source). -/
def maxFecha (df : List SaleRow) : ℤ := ((df.map (fun r => r.fecha)).max?).getD 0

/-- `df['fecha'].min()`. -/
def minFecha (df : List SaleRow) : ℤ := ((df.map (fun r => r.fecha)).min?).getD 0

/-- The `groupby(fecha)` daily series as (date, quantity) pairs, dates
ascending as pandas produces them. -/
def dailyPairs (df : List SaleRow) : List (ℤ × ℚ) :=
  (((df.map (fun r => r.fecha)).dedup).mergeSort (fun a b => a ≤ b)).map
    (fun d => (d, ((df.filter (fun r => r.fecha = d)).map (·.cantidad)).sum))

/-- `np.linspace(1, 2, n)`. -/
def pesosOf (n : ℕ) : List ℚ :=
  if n = 1 then [1]
  else (List.range n).map (fun i => 1 + (i : ℚ) / ((n : ℚ) - 1))

/-- `DemandForecaster._promedio_movil_ponderado`: weighted average over the
complete calendar grid of the trailing window, weights rising linearly from
1 to 2. -/
def promedio_movil_ponderado (df : List SaleRow) (fecha_fin : ℤ)
    (ventana_dias : ℤ) : ℚ :=
  if df.filter (fun r => fecha_fin - ventana_dias ≤ r.fecha) = [] then 0
  else
    let df_reciente := df.filter (fun r => fecha_fin - ventana_dias ≤ r.fecha)
    let n : ℕ := (ventana_dias + 1).toNat
    let cantidades := (List.range n).map (fun i =>
      ((df_reciente.filter (fun r => r.fecha = fecha_fin - ventana_dias + i)).map
        (·.cantidad)).sum)
    let suma_ponderada := (List.zipWith (· * ·) cantidades (pesosOf n)).sum
    let suma_pesos := (pesosOf n).sum
    if 0 < suma_pesos then suma_ponderada / suma_pesos else 0

/-- `DemandForecaster._ml_tendencia`: least-squares line over (day-index,
daily quantity), R² (clamped to [0.3, 0.95]) as confidence, trend by the
slope against 1% of the mean daily quantity, and the mean of the next 15
fitted values (floored at 0) as the projection.  With fewer than 30
sale-days it degrades to total/period with confidence 0.3. -/
def ml_tendencia (df : List SaleRow) (fecha_fin : ℤ) : ℚ × String × ℚ :=
  if (dailyPairs df).length < 30 then
    (((dailyPairs df).map (·.2)).sum
       / ((max 1 (maxFecha df - minFecha df + 1) : ℤ) : ℚ),
     "estable", 3/10)
  else
    let fecha_min : ℤ := minFecha df
    let xs : List ℚ := (dailyPairs df).map (fun p => ((p.1 - fecha_min : ℤ) : ℚ))
    let ys : List ℚ := (dailyPairs df).map (·.2)
    let n : ℚ := ((dailyPairs df).length : ℚ)
    let xbar : ℚ := xs.sum / n
    let ybar : ℚ := ys.sum / n
    let sxx : ℚ := (xs.map (fun x => (x - xbar) ^ 2)).sum
    let sxy : ℚ := (List.zipWith (fun x y => (x - xbar) * (y - ybar)) xs ys).sum
    let pendiente : ℚ := if sxx = 0 then 0 else sxy / sxx
    let intercept : ℚ := ybar - pendiente * xbar
    let ssRes : ℚ :=
      (List.zipWith (fun x y => (y - (intercept + pendiente * x)) ^ 2) xs ys).sum
    let ssTot : ℚ := (ys.map (fun y => (y - ybar) ^ 2)).sum
    let r2 : ℚ := if ssTot = 0 then (if ssRes = 0 then 1 else 0) else 1 - ssRes / ssTot
    let confianza : ℚ := max (3/10) (min (95/100) r2)
    let ratio : ℚ := pendiente / max (1/100) ybar
    let tendencia : String :=
      if 1/100 < ratio then "creciente"
      else if ratio < -(1/100) then "decreciente"
      else "estable"
    let dias_futuro : ℤ := fecha_fin - fecha_min
    let demanda : ℚ := max 0
      ((((List.range 15).map
        (fun i => intercept + pendiente * ((dias_futuro : ℚ) + (i : ℚ)))).sum) / 15)
    (demanda, tendencia, confianza)

/-- `DemandForecaster._seleccionar_mejor_metodo` (thresholds 14 and 30 from
`__init__`). -/
def seleccionar_mejor_metodo (demanda_simple demanda_mediana demanda_movil
    demanda_ml confianza_ml : ℚ) (dias_con_datos : ℤ) (tendencia : String)
    (metodo_preferido : String) : ℚ × String × ℚ :=
  if metodo_preferido = "promedio_simple" then (demanda_simple, "promedio_simple", 6/10)
  else if metodo_preferido = "mediana" then (demanda_mediana, "mediana", 7/10)
  else if dias_con_datos < 14 then (demanda_mediana, "mediana", 1/2)
  else if dias_con_datos < 30 then (demanda_movil, "promedio_movil", 6/10)
  else if 6/10 < confianza_ml ∧ ¬ tendencia = "estable" then
    (demanda_ml, "ml_tendencia", confianza_ml)
  else
    (demanda_mediana * (3/10) + demanda_movil * (4/10) + demanda_ml * (3/10),
     "combinado", 7/10)

/-- The `sin_datos` result of `calculate_demand`. -/
def sinDatosResult (product_id deposit_id : ℤ) : ForecastResult :=
  { product_id := product_id, deposit_id := deposit_id, demanda_diaria := 0,
    metodo_usado := "sin_datos", confianza := 0, tendencia := "estable",
    ventas_30_dias := 0, ventas_60_dias := 0, ventas_90_dias := 0,
    ventas_365_dias := 0, monto_90_dias := 0 }

/-- The non-empty path of `calculate_demand`, applied to the already
restricted series `df2` with `fecha_fin` the maximum date of the original
series. -/
def calc_demand_core (df2 : List SaleRow) (product_id deposit_id fecha_fin : ℤ)
    (metodo_preferido : String) : ForecastResult :=
  { product_id := product_id
    deposit_id := deposit_id
    demanda_diaria := max 0 (seleccionar_mejor_metodo
      (promedio_simple df2 (fecha_fin - minFecha df2 + 1))
      (mediana_ajustada df2 (fecha_fin - minFecha df2 + 1))
      (promedio_movil_ponderado df2 fecha_fin 90)
      (ml_tendencia df2 fecha_fin).1 (ml_tendencia df2 fecha_fin).2.2
      (fecha_fin - minFecha df2 + 1) (ml_tendencia df2 fecha_fin).2.1
      metodo_preferido).1
    metodo_usado := (seleccionar_mejor_metodo
      (promedio_simple df2 (fecha_fin - minFecha df2 + 1))
      (mediana_ajustada df2 (fecha_fin - minFecha df2 + 1))
      (promedio_movil_ponderado df2 fecha_fin 90)
      (ml_tendencia df2 fecha_fin).1 (ml_tendencia df2 fecha_fin).2.2
      (fecha_fin - minFecha df2 + 1) (ml_tendencia df2 fecha_fin).2.1
      metodo_preferido).2.1
    confianza := (seleccionar_mejor_metodo
      (promedio_simple df2 (fecha_fin - minFecha df2 + 1))
      (mediana_ajustada df2 (fecha_fin - minFecha df2 + 1))
      (promedio_movil_ponderado df2 fecha_fin 90)
      (ml_tendencia df2 fecha_fin).1 (ml_tendencia df2 fecha_fin).2.2
      (fecha_fin - minFecha df2 + 1) (ml_tendencia df2 fecha_fin).2.1
      metodo_preferido).2.2
    tendencia := (ml_tendencia df2 fecha_fin).2.1
    ventas_30_dias := ((df2.filter (fun r => fecha_fin - 30 ≤ r.fecha)).map (·.cantidad)).sum
    ventas_60_dias := ((df2.filter (fun r => fecha_fin - 60 ≤ r.fecha)).map (·.cantidad)).sum
    ventas_90_dias := ((df2.filter (fun r => fecha_fin - 90 ≤ r.fecha)).map (·.cantidad)).sum
    ventas_365_dias := (df2.map (·.cantidad)).sum
    monto_90_dias := ((df2.filter (fun r => fecha_fin - 90 ≤ r.fecha)).map (·.monto)).sum }

/-- `DemandForecaster.calculate_demand`. -/
def calculate_demand (df : List SaleRow) (product_id deposit_id days_back : ℤ)
    (metodo_preferido : String) : ForecastResult :=
  if df = [] then sinDatosResult product_id deposit_id
  else if df.filter (fun r => maxFecha df - days_back ≤ r.fecha) = [] then
    sinDatosResult product_id deposit_id
  else
    calc_demand_core (df.filter (fun r => maxFecha df - days_back ≤ r.fecha))
      product_id deposit_id (maxFecha df) metodo_preferido

/-- The restriction of the series to the trailing window ending at its own
maximum date. -/
def restrictedSeries (df : List SaleRow) (days_back : ℤ) : List SaleRow :=
  if df = [] then [] else df.filter (fun r => maxFecha df - days_back ≤ r.fecha)

theorem seleccionar_metodo_choices (demanda_simple demanda_mediana demanda_movil
    demanda_ml confianza_ml : ℚ) (dias_con_datos : ℤ) (tendencia : String)
    (metodo_preferido : String) :
    (seleccionar_mejor_metodo demanda_simple demanda_mediana demanda_movil
        demanda_ml confianza_ml dias_con_datos tendencia metodo_preferido).2.1
        = "promedio_simple" ∨
      (seleccionar_mejor_metodo demanda_simple demanda_mediana demanda_movil
        demanda_ml confianza_ml dias_con_datos tendencia metodo_preferido).2.1 = "mediana" ∨
      (seleccionar_mejor_metodo demanda_simple demanda_mediana demanda_movil
        demanda_ml confianza_ml dias_con_datos tendencia metodo_preferido).2.1
        = "promedio_movil" ∨
      (seleccionar_mejor_metodo demanda_simple demanda_mediana demanda_movil
        demanda_ml confianza_ml dias_con_datos tendencia metodo_preferido).2.1
        = "ml_tendencia" ∨
      (seleccionar_mejor_metodo demanda_simple demanda_mediana demanda_movil
        demanda_ml confianza_ml dias_con_datos tendencia metodo_preferido).2.1
        = "combinado" := by
  unfold seleccionar_mejor_metodo
  split_ifs <;> simp

/-- Claim C8: `calculate_demand` returns method `sin_datos` iff the series is
empty after restriction to the trailing window ending at its own maximum
date; in that case the result is exactly the all-zero record with confidence
0 and trend `estable`.  The embedding is a total function: this case is a
returned value, never an exception. -/
theorem claim_C8_no_data (df : List SaleRow) (product_id deposit_id days_back : ℤ)
    (metodo_preferido : String) :
    ((calculate_demand df product_id deposit_id days_back metodo_preferido).metodo_usado
        = "sin_datos" ↔ restrictedSeries df days_back = []) ∧
      (restrictedSeries df days_back = [] →
        calculate_demand df product_id deposit_id days_back metodo_preferido
          = { product_id := product_id, deposit_id := deposit_id, demanda_diaria := 0,
              metodo_usado := "sin_datos", confianza := 0, tendencia := "estable",
              ventas_30_dias := 0, ventas_60_dias := 0, ventas_90_dias := 0,
              ventas_365_dias := 0, monto_90_dias := 0 }) := by
  by_cases h0 : df = []
  · subst h0
    constructor
    · constructor
      · intro _
        rfl
      · intro _
        rfl
    · intro _
      rfl
  · by_cases h1 : df.filter (fun r => maxFecha df - days_back ≤ r.fecha) = []
    · have hr : restrictedSeries df days_back = [] := by
        unfold restrictedSeries
        rw [if_neg h0]
        exact h1
      have hc : calculate_demand df product_id deposit_id days_back metodo_preferido
          = sinDatosResult product_id deposit_id := by
        unfold calculate_demand
        rw [if_neg h0, if_pos h1]
      constructor
      · rw [hc, hr]
        exact ⟨fun _ => rfl, fun _ => rfl⟩
      · intro _
        rw [hc]
        rfl
    · have hr : ¬ restrictedSeries df days_back = [] := by
        unfold restrictedSeries
        rw [if_neg h0]
        exact h1
      have hc : calculate_demand df product_id deposit_id days_back metodo_preferido
          = calc_demand_core (df.filter (fun r => maxFecha df - days_back ≤ r.fecha))
              product_id deposit_id (maxFecha df) metodo_preferido := by
        unfold calculate_demand
        rw [if_neg h0, if_neg h1]
      have hm : (calculate_demand df product_id deposit_id days_back
          metodo_preferido).metodo_usado ≠ "sin_datos" := by
        rw [hc]
        have hch := seleccionar_metodo_choices
          (promedio_simple (df.filter (fun r => maxFecha df - days_back ≤ r.fecha))
            (maxFecha df - minFecha (df.filter (fun r => maxFecha df - days_back ≤ r.fecha)) + 1))
          (mediana_ajustada (df.filter (fun r => maxFecha df - days_back ≤ r.fecha))
            (maxFecha df - minFecha (df.filter (fun r => maxFecha df - days_back ≤ r.fecha)) + 1))
          (promedio_movil_ponderado (df.filter (fun r => maxFecha df - days_back ≤ r.fecha))
            (maxFecha df) 90)
          (ml_tendencia (df.filter (fun r => maxFecha df - days_back ≤ r.fecha))
            (maxFecha df)).1
          (ml_tendencia (df.filter (fun r => maxFecha df - days_back ≤ r.fecha))
            (maxFecha df)).2.2
          (maxFecha df - minFecha (df.filter (fun r => maxFecha df - days_back ≤ r.fecha)) + 1)
          (ml_tendencia (df.filter (fun r => maxFecha df - days_back ≤ r.fecha))
            (maxFecha df)).2.1
          metodo_preferido
        have hproj : (calc_demand_core (df.filter (fun r => maxFecha df - days_back ≤ r.fecha))
            product_id deposit_id (maxFecha df) metodo_preferido).metodo_usado
            = (seleccionar_mejor_metodo
              (promedio_simple (df.filter (fun r => maxFecha df - days_back ≤ r.fecha))
                (maxFecha df - minFecha (df.filter (fun r => maxFecha df - days_back ≤ r.fecha)) + 1))
              (mediana_ajustada (df.filter (fun r => maxFecha df - days_back ≤ r.fecha))
                (maxFecha df - minFecha (df.filter (fun r => maxFecha df - days_back ≤ r.fecha)) + 1))
              (promedio_movil_ponderado (df.filter (fun r => maxFecha df - days_back ≤ r.fecha))
                (maxFecha df) 90)
              (ml_tendencia (df.filter (fun r => maxFecha df - days_back ≤ r.fecha))
                (maxFecha df)).1
              (ml_tendencia (df.filter (fun r => maxFecha df - days_back ≤ r.fecha))
                (maxFecha df)).2.2
              (maxFecha df - minFecha (df.filter (fun r => maxFecha df - days_back ≤ r.fecha)) + 1)
              (ml_tendencia (df.filter (fun r => maxFecha df - days_back ≤ r.fecha))
                (maxFecha df)).2.1
              metodo_preferido).2.1 := rfl
        rw [hproj]
        rcases hch with h | h | h | h | h <;> rw [h] <;> decide
      exact ⟨⟨fun h => absurd h hm, fun h => absurd h hr⟩, fun h => absurd h hr⟩

theorem claim_C8_no_data_witness :
    restrictedSeries ([] : List SaleRow) 365 = [] ∧
      ((calculate_demand ([] : List SaleRow) 1 2 365 "mediana").metodo_usado = "sin_datos" ↔
        restrictedSeries ([] : List SaleRow) 365 = []) ∧
      calculate_demand ([] : List SaleRow) 1 2 365 "mediana"
        = { product_id := 1, deposit_id := 2, demanda_diaria := 0,
            metodo_usado := "sin_datos", confianza := 0, tendencia := "estable",
            ventas_30_dias := 0, ventas_60_dias := 0, ventas_90_dias := 0,
            ventas_365_dias := 0, monto_90_dias := 0 } := by
  have h : restrictedSeries ([] : List SaleRow) 365 = [] := rfl
  exact ⟨h, (claim_C8_no_data [] 1 2 365 "mediana").1,
    (claim_C8_no_data [] 1 2 365 "mediana").2 h⟩
